import Mathlib

/-!
# Verification of the lyra diff-based code-quality analysis engine

A shallow embedding of the heuristic analysis engine of the repository:
the diff parser, function extractor, complexity/duplication/convention/design
metric calculators (`src/tools/code-quality-tools.ts`), the aggregation layer
(`src/tools/analysis-tools.ts`) and the performance-insight generator
(`PerformanceAnalysisTools`).  JavaScript numbers are modelled as rationals
(`ℚ`, exact arithmetic); strings as Lean `String`; JavaScript arrays as
`List`; the small set of regular expressions the engine uses is modelled by
a tiny backtracking matcher (`RE` / `runRE`) with JavaScript semantics
(leftmost match, left-biased alternation, greedy repetition over character
classes, word-boundary assertions).
-/

/-! ## JavaScript string primitives -/

/-- JavaScript `\w` character class: `[A-Za-z0-9_]`. -/
def isWordChar (c : Char) : Bool :=
  ('a' ≤ c && c ≤ 'z') || ('A' ≤ c && c ≤ 'Z') || ('0' ≤ c && c ≤ '9') || c == '_'

/-- JavaScript `\s` (restricted to the ASCII whitespace the analysed text uses). -/
def isJsSpace (c : Char) : Bool :=
  c == ' ' || c == '\t' || c == '\n' || c == '\r' || c == '\x0b' || c == '\x0c'

/-- `pre` is a prefix of `s` (JavaScript `s.startsWith(pre)`), on char lists. -/
def listStarts : List Char → List Char → Bool
  | [], _ => true
  | _ :: _, [] => false
  | a :: as, b :: bs => a == b && listStarts as bs

/-- JavaScript `s.startsWith(pre)`. -/
def jsStartsWith (s pre : String) : Bool := listStarts pre.toList s.toList

/-- Split a char list on a separator character (JavaScript `String.split`). -/
def splitListOn (c : Char) : List Char → List (List Char)
  | [] => [[]]
  | x :: xs =>
    match splitListOn c xs with
    | [] => [[]]
    | h :: t => if x = c then [] :: h :: t else (x :: h) :: t

/-- JavaScript `s.split('\n')`. -/
def jsSplitNL (s : String) : List String := (splitListOn '\n' s.toList).map String.mk

/-- JavaScript `s.trim()` (strip leading/trailing whitespace). -/
def jsTrim (s : String) : String :=
  String.mk (((s.toList.dropWhile isJsSpace).reverse.dropWhile isJsSpace).reverse)

/-- JavaScript `Array.prototype.join(sep)`. -/
def jsJoin (sep : String) : List String → String
  | [] => ""
  | [x] => x
  | x :: y :: xs => x ++ sep ++ jsJoin sep (y :: xs)

/-- JavaScript `Math.round`: round half towards positive infinity. -/
def jsRound (q : ℚ) : Int := ⌊q + 1/2⌋

/-- JavaScript `Math.max` over a list of already-computed values (only used on
nonempty lists in the source; the empty case, `-Infinity` in JavaScript, is
never reached and is mapped to `0`). -/
def jsMaxList : List ℚ → ℚ
  | [] => 0
  | x :: xs => xs.foldl max x

/-- First-occurrence deduplication, the order `[...new Set(xs)]` produces. -/
def dedupFirst : List String → List String
  | [] => []
  | x :: xs => x :: dedupFirst (xs.filter (· ≠ x))
termination_by l => l.length
decreasing_by
  simp only [List.length_cons]
  exact Nat.lt_succ_of_le (List.length_filter_le _ _)

/-! ## A tiny regex engine with JavaScript semantics

The engine supports exactly the constructs the source's regex literals use:
literals, character classes, concatenation, alternation (left-biased),
greedy `*`/`+` over character classes, greedy `?`, a single capture group
(the source only ever reads `match[1]`), and `\b` word boundaries.
`runRE` returns the list of possible (remaining input, previous character,
capture) states in JavaScript backtracking priority order, so the head of
the list is the state JavaScript's engine commits to. -/

inductive RE where
  | eps
  | lit (s : List Char)
  | cls (p : Char → Bool)
  | seq (a b : RE)
  | alt (a b : RE)
  | many (p : Char → Bool)
  | opt (a : RE)
  | grp (a : RE)
  | bnd

/-- Word-boundary test between the previous character and the rest of the input. -/
def boundaryOk (prev : Option Char) (rest : List Char) : Bool :=
  let w1 := match prev with | some c => isWordChar c | none => false
  let w2 := match rest with | c :: _ => isWordChar c | [] => false
  w1 != w2

/-- Consume a literal, tracking the last consumed character. -/
def dropLit : List Char → List Char → Option Char → Option (List Char × Option Char)
  | [], s, pv => some (s, pv)
  | _ :: _, [], _ => none
  | c :: l, c' :: s, _ => if c == c' then dropLit l s (some c') else none

/-- All ways a greedy class repetition can split the input, longest first. -/
def manySplits (p : Char → Bool) : List Char → Option Char → List (List Char × Option Char)
  | [], pv => [([], pv)]
  | c :: s, pv =>
    if p c then manySplits p s (some c) ++ [(c :: s, pv)] else [(c :: s, pv)]

/-- Run a regex against the input, producing all resulting
(rest, previous char, group-1 capture) states in JS priority order. -/
def runRE : RE → List Char → Option Char → Option (List Char) →
    List (List Char × Option Char × Option (List Char))
  | .eps, s, pv, cap => [(s, pv, cap)]
  | .lit l, s, pv, cap =>
    match dropLit l s pv with
    | some (s', pv') => [(s', pv', cap)]
    | none => []
  | .cls _, [], _, _ => []
  | .cls p, c :: s, _, cap => if p c then [(s, some c, cap)] else []
  | .seq a b, s, pv, cap =>
    (runRE a s pv cap).flatMap (fun st => runRE b st.1 st.2.1 st.2.2)
  | .alt a b, s, pv, cap => runRE a s pv cap ++ runRE b s pv cap
  | .many p, s, pv, cap => (manySplits p s pv).map (fun st => (st.1, st.2, cap))
  | .opt a, s, pv, cap => runRE a s pv cap ++ [(s, pv, cap)]
  | .grp a, s, pv, cap =>
    (runRE a s pv cap).map (fun st => (st.1, st.2.1, some (s.take (s.length - st.1.length))))
  | .bnd, s, pv, cap => if boundaryOk pv s then [(s, pv, cap)] else []

/-- Concatenate a list of regexes. -/
def reCat (l : List RE) : RE := l.foldr RE.seq RE.eps

/-- A string literal regex. -/
def reStr (s : String) : RE := RE.lit s.toList

/-- `\s*` -/
def reWsStar : RE := RE.many isJsSpace

/-- `\s+` -/
def reWsPlus : RE := RE.seq (RE.cls isJsSpace) (RE.many isJsSpace)

/-- `\w+` -/
def reWordPlus : RE := RE.seq (RE.cls isWordChar) (RE.many isWordChar)

/-- The character of the full input just before position `p`. -/
def prevCharAt (cs : List Char) (p : Nat) : Option Char :=
  if p = 0 then none else cs.get? (p - 1)

/-- Leftmost match of `re` in `cs` starting at a position `≥ pos`:
`(start, length, group-1 capture)`.  This is how JavaScript's engine
searches: try each start position left to right, and at each position take
the first (highest-priority) parse. -/
def reFindFrom (re : RE) (cs : List Char) (pos : Nat) :
    Option (Nat × Nat × Option (List Char)) :=
  ((List.range (cs.length + 1)).filter (pos ≤ ·)).findSome? (fun p =>
    match runRE re (cs.drop p) (prevCharAt cs p) none with
    | [] => none
    | st :: _ => some (p, (cs.length - p) - st.1.length, st.2.2))

/-- JavaScript `re.test(s)` / `s.match(re)` success (unanchored search). -/
def reTest (re : RE) (s : String) : Bool := (reFindFrom re s.toList 0).isSome

/-- Group 1 of the first match of `re` in `s` (JavaScript `s.match(re)[1]`),
`none` when there is no match or group 1 did not participate. -/
def reMatchGroup1 (re : RE) (s : String) : Option String :=
  match reFindFrom re s.toList 0 with
  | some (_, _, some g) => some (String.mk g)
  | _ => none

/-- Count all matches of a global regex (`s.match(/re/g).length`):
starting from `lastIndex`, the engine looks for the leftmost match by trying
each position in turn; on a match it resumes just after it (advancing at
least one position, as JavaScript does for empty matches). -/
def reCountAux (re : RE) (cs : List Char) : Nat → Nat → Nat
  | _, 0 => 0
  | pos, fuel + 1 =>
    if cs.length < pos then 0
    else
      match runRE re (cs.drop pos) (prevCharAt cs pos) none with
      | [] => reCountAux re cs (pos + 1) fuel
      | st :: _ => 1 + reCountAux re cs (pos + max ((cs.length - pos) - st.1.length) 1) fuel

/-- Number of matches of global regex `re` in `s`. -/
def reCount (re : RE) (s : String) : Nat := reCountAux re s.toList 0 (s.toList.length + 1)

/-- Anchored test `/^...$/` : some parse consumes the entire string. -/
def reFullMatch (re : RE) (s : String) : Bool :=
  (runRE re s.toList none none).any (fun st => st.1.isEmpty)

/-- Anchored-at-start test (`/^.../.test(s)`): some parse starts at position 0. -/
def reTestStart (re : RE) (s : String) : Bool :=
  !(runRE re s.toList none none).isEmpty

/-! ## The regex literals of `code-quality-tools.ts` -/

/-- `/\bif\b/`, `/\bwhile\b/`, ... : a word-delimited keyword. -/
def reKw (w : String) : RE := reCat [RE.bnd, reStr w, RE.bnd]

/-- `/\belse\s+if\b/` -/
def reElseIf : RE := reCat [RE.bnd, reStr "else", reWsPlus, reStr "if", RE.bnd]

/-- `/\b&&\b/` (note: the `\b`s force a word character on each side). -/
def reAmpAmp : RE := reCat [RE.bnd, reStr "&&", RE.bnd]

/-- `/\b\|\|\b/` -/
def reOrOr : RE := reCat [RE.bnd, reStr "||", RE.bnd]

/-- `/\?\s*:/` (ternary operator). -/
def reTernary : RE := reCat [reStr "?", reWsStar, reStr ":"]

/-- `/&&|\|\|/` (binary logical operators, cognitive complexity). -/
def reLogicalOps : RE := RE.alt (reStr "&&") (reStr "||")

/-- `/^\s*(if|while|for|do|switch)\b/` (control-flow line prefix). -/
def reCtrlFlow : RE :=
  reCat [reWsStar,
    RE.alt (reStr "if") (RE.alt (reStr "while") (RE.alt (reStr "for")
      (RE.alt (reStr "do") (reStr "switch")))), RE.bnd]

/-- `/^\s*(catch|finally)\b/` (exception-handling line prefix). -/
def reCatchFinally : RE :=
  reCat [reWsStar, RE.alt (reStr "catch") (reStr "finally"), RE.bnd]

/-- `/\bnew\s+\w+/` (direct concrete-type instantiation). -/
def reNewDep : RE := reCat [RE.bnd, reStr "new", reWsPlus, reWordPlus]

/-- `[:=]` -/
def reColonEq : RE := RE.cls (fun c => c == ':' || c == '=')

/-- `\([^)]*\)` -/
def reParens : RE := reCat [reStr "(", RE.many (· ≠ ')'), reStr ")"]

/-- The JavaScript/TypeScript function-header regex
`/(?:function\s+(\w+)|(\w+)\s*[:=]\s*(?:function|\([^)]*\)\s*=>)|(\w+)\s*\([^)]*\)\s*{)/`.
Only group 1 (the first branch's name) is ever read by the source
(`match[1] || 'anonymous'`), so only that group is marked as a capture. -/
def reFuncJs : RE :=
  RE.alt (reCat [reStr "function", reWsPlus, RE.grp reWordPlus])
    (RE.alt
      (reCat [reWordPlus, reWsStar, reColonEq, reWsStar,
        RE.alt (reStr "function") (reCat [reParens, reWsStar, reStr "=>"])])
      (reCat [reWordPlus, reWsStar, reParens, reWsStar, reStr "\x7b"]))

/-- `/def\s+(\w+)/` (Python). -/
def reFuncPython : RE := reCat [reStr "def", reWsPlus, RE.grp reWordPlus]

/-- `/(?:public|private|protected)?\s*(?:static)?\s*\w+\s+(\w+)\s*\(/` (Java, C#). -/
def reFuncJava : RE :=
  reCat [RE.opt (RE.alt (reStr "public") (RE.alt (reStr "private") (reStr "protected"))),
    reWsStar, RE.opt (reStr "static"), reWsStar, reWordPlus, reWsPlus,
    RE.grp reWordPlus, reWsStar, reStr "("]

/-- `/(?:\w+\s+)?(\w+)\s*\([^)]*\)\s*{/` (C++). -/
def reFuncCpp : RE :=
  reCat [RE.opt (RE.seq reWordPlus reWsPlus), RE.grp reWordPlus, reWsStar,
    reParens, reWsStar, reStr "\x7b"]

/-- `/(\w+)\s*\([^)]*\)\s*{/` (fallback for unknown languages). -/
def reFuncDefault : RE :=
  reCat [RE.grp reWordPlus, reWsStar, reParens, reWsStar, reStr "\x7b"]

/-- `/^[a-z][a-zA-Z0-9]*$/` (variable / function naming convention). -/
def reLowerCamel : RE :=
  RE.seq (RE.cls (fun c => 'a' ≤ c && c ≤ 'z'))
    (RE.many (fun c => ('a' ≤ c && c ≤ 'z') || ('A' ≤ c && c ≤ 'Z') || ('0' ≤ c && c ≤ '9')))

/-- `/^[A-Z][a-zA-Z0-9]*$/` (class naming convention). -/
def reUpperCamel : RE :=
  RE.seq (RE.cls (fun c => 'A' ≤ c && c ≤ 'Z'))
    (RE.many (fun c => ('a' ≤ c && c ≤ 'z') || ('A' ≤ c && c ≤ 'Z') || ('0' ≤ c && c ≤ '9')))

/-! ## Data model (`src/types/index.ts`) -/

/-- A parsed diff file: `{ path, content, additions }`. -/
structure DiffFile where
  path : String
  content : String
  additions : List String
deriving Repr, DecidableEq

/-- A heuristically extracted function: `{ name, line, body }`. -/
structure ExtractedFunction where
  name : String
  line : Nat
  body : String
deriving Repr, DecidableEq

structure FunctionScore where
  name : String
  line : Nat
  score : ℚ
deriving Repr, DecidableEq

structure FileScore where
  path : String
  score : ℚ
  functions : List FunctionScore
deriving Repr, DecidableEq

structure ComplexityScore where
  average : ℚ
  maximum : ℚ
  violationsCount : Nat
  files : List FileScore
deriving Repr, DecidableEq

structure DupBlock where
  lines : Nat
  occurrences : Nat
  files : List String
deriving Repr, DecidableEq

structure DuplicationScore where
  percentage : ℚ
  linesCount : Nat
  blocksCount : Nat
  duplicatedBlocks : List DupBlock
deriving Repr, DecidableEq

structure ConventionViolation where
  type : String
  file : String
  line : Nat
  message : String
deriving Repr, DecidableEq

structure ConventionCategories where
  /-- the source field is named `variables`, a reserved word in Lean -/
  variables' : Nat
  functions : Nat
  classes : Nat
  files : Nat
deriving Repr, DecidableEq

structure ConventionScore where
  overall : ℚ
  categories : ConventionCategories
  violations : List ConventionViolation
deriving Repr, DecidableEq

structure SolidViolation where
  principle : String
  file : String
  line : Nat
  description : String
  severity : String
deriving Repr, DecidableEq

structure SolidPrinciples where
  singleResponsibility : ℚ
  openClosed : ℚ
  liskovSubstitution : ℚ
  interfaceSegregation : ℚ
  dependencyInversion : ℚ
deriving Repr, DecidableEq

structure SolidScore where
  overall : ℚ
  principles : SolidPrinciples
  violations : List SolidViolation
deriving Repr, DecidableEq

structure CodeSmell where
  type : String
  file : String
  line : Nat
  description : String
  severity : String
  suggestion : String
deriving Repr, DecidableEq

structure AntiPattern where
  type : String
  file : String
  lines : List Nat
  description : String
  impact : String
  refactoringGuide : String
deriving Repr, DecidableEq

structure IdiomUsage where
  idiom : String
  usage : String
  file : String
  line : Option Nat
  suggestion : String
deriving Repr, DecidableEq

structure LanguageIdiomScore where
  overall : ℚ
  language : String
  idiomUsage : List IdiomUsage
deriving Repr, DecidableEq

structure DesignPatternUsage where
  pattern : String
  usage : String
  file : String
  lines : List Nat
  description : String
deriving Repr, DecidableEq

structure CodeQualityMetrics where
  cyclomaticComplexity : ComplexityScore
  cognitiveComplexity : ComplexityScore
  nestingDepth : ComplexityScore
  functionLength : ComplexityScore
  codeDuplication : DuplicationScore
  namingConventions : ConventionScore
  solidPrinciples : SolidScore
  codeSmells : List CodeSmell
  antiPatterns : List AntiPattern
  languageIdioms : LanguageIdiomScore
  designPatterns : List DesignPatternUsage
deriving Repr, DecidableEq

/-! ## DiffParser (`parseDiffFiles`) -/

/-- `line.match(/diff --git a\/(.+) b\/(.+)/)`, returning capture group 2 (the
post-change path), which is all the source reads.  Leftmost match; the greedy
first `(.+)` makes the ` b/` separator the last occurrence that still leaves a
nonempty second group.  (Diff lines contain no `'\n'`, so `.` never fails.) -/
def matchDiffHeader (line : String) : Option String :=
  let cs := line.toList
  let header := "diff --git a/".toList
  (List.range (cs.length + 1)).findSome? (fun p =>
    if listStarts header (cs.drop p) then
      let r := cs.drop (p + header.length)
      let qs := (List.range r.length).filter (fun q =>
        decide (1 ≤ q) && listStarts " b/".toList (r.drop q) && decide (q + 3 < r.length))
      match qs.getLast? with
      | some q => some (String.mk (r.drop (q + 3)))
      | none => none
    else none)

/-- Replace element `i` of a list by `f` of it. -/
def modifyAt {α : Type} (i : Nat) (f : α → α) : List α → List α
  | [] => []
  | x :: xs =>
    match i with
    | 0 => f x :: xs
    | i + 1 => x :: modifyAt i f xs

/-- State of the `parseDiffFiles` loop.  The source mutates file objects that
may already have been pushed into the result array (a failed header match
leaves `currentFile` aliased with an already-pushed element), so the
embedding keeps a store of created objects (`objs`), the pushed indices in
push order (`order`), and the index of the current file. -/
structure ParseState where
  objs : List DiffFile
  order : List Nat
  cur : Option Nat
  inFile : Bool

/-- One iteration of the `parseDiffFiles` loop over diff lines. -/
def parseDiffStep (st : ParseState) (line : String) : ParseState :=
  if jsStartsWith line "diff --git" then
    let order := match st.cur with | some i => st.order ++ [i] | none => st.order
    match matchDiffHeader line with
    | some path =>
      { objs := st.objs ++ [⟨path, "", []⟩], order := order,
        cur := some st.objs.length, inFile := true }
    | none => { st with order := order }
  else if jsStartsWith line "+++" || jsStartsWith line "---" || jsStartsWith line "@@" then
    st
  else if st.inFile then
    match st.cur with
    | some i =>
      { st with objs := modifyAt i (fun f =>
          { f with
            content := f.content ++ line ++ "\n",
            additions :=
              if jsStartsWith line "+" && !jsStartsWith line "+++"
              then f.additions ++ [String.mk (line.toList.drop 1)]
              else f.additions }) st.objs }
    | none => st
  else st

/-- `parseDiffFiles(diffContent)`: split the diff into per-file records. -/
def parseDiffFiles (diffContent : String) : List DiffFile :=
  let st := (jsSplitNL diffContent).foldl parseDiffStep ⟨[], [], none, false⟩
  let order := match st.cur with | some i => st.order ++ [i] | none => st.order
  order.filterMap (fun i => st.objs.get? i)

/-! ## Language dispatch -/

/-- The fixed extension-to-language table of `getLanguageFromPath`. -/
def languageMap : List (String × String) :=
  [("js", "javascript"), ("ts", "typescript"), ("py", "python"), ("java", "java"),
   ("cpp", "cpp"), ("c", "c"), ("cs", "csharp"), ("rb", "ruby"), ("go", "go"), ("php", "php")]

/-- JavaScript `s.toLowerCase()` (ASCII). -/
def jsToLower (s : String) : String := String.mk (s.toList.map Char.toLower)

/-- `getLanguageFromPath`: last `.`-separated component, lowercased, looked up. -/
def getLanguageFromPath (filePath : String) : String :=
  let parts := splitListOn '.' filePath.toList
  let ext := jsToLower (String.mk (parts.getLast?.getD []))
  match languageMap.find? (fun e => e.1 == ext) with
  | some e => e.2
  | none => "unknown"

/-- `getFunctionRegex`: per-language function-header pattern with generic fallback. -/
def getFunctionRegex (language : String) : RE :=
  if language == "javascript" || language == "typescript" then reFuncJs
  else if language == "python" then reFuncPython
  else if language == "java" || language == "csharp" then reFuncJava
  else if language == "cpp" then reFuncCpp
  else reFuncDefault

/-! ## FunctionExtractor (`extractFunctions`) -/

/-- `(line.match(/{/g) || []).length` — occurrences of a character. -/
def countCharIn (line : String) (c : Char) : Nat := line.toList.count c

/-- State of the `extractFunctions` scan. -/
structure ExtractState where
  functions : List ExtractedFunction
  currentFunction : Option ExtractedFunction
  braceCount : Int
  inFunction : Bool

/-- `extractFunctions(lines, filePath)`: heuristic function-boundary scan over
added lines.  A line matching the language's header pattern closes any open
function and opens a new one (name = capture group 1 or `"anonymous"`);
while open, lines are appended to the body and a running brace counter
closes the function when it drops to zero or below. -/
def extractFunctions (lines : List String) (filePath : String) : List ExtractedFunction :=
  let language := getLanguageFromPath filePath
  let functionRegex := getFunctionRegex language
  let st := lines.enum.foldl (fun (st : ExtractState) (il : Nat × String) =>
    let i := il.1
    let line := il.2
    let trimmedLine := jsTrim line
    if reTest functionRegex trimmedLine then
      let functions := match st.currentFunction with
        | some f => st.functions ++ [f]
        | none => st.functions
      { functions := functions,
        currentFunction := some
          ⟨(reMatchGroup1 functionRegex trimmedLine).getD "anonymous", i + 1, line⟩,
        braceCount := (countCharIn line '{' : Int) - (countCharIn line '}' : Int),
        inFunction := true }
    else if st.inFunction then
      match st.currentFunction with
      | some f =>
        let f := { f with body := f.body ++ "\n" ++ line }
        let braceCount :=
          st.braceCount + (countCharIn line '{' : Int) - (countCharIn line '}' : Int)
        if braceCount ≤ 0 then
          { functions := st.functions ++ [f], currentFunction := none,
            braceCount := braceCount, inFunction := false }
        else
          { st with currentFunction := some f, braceCount := braceCount }
      | none => st
    else st) ⟨[], none, 0, false⟩
  match st.currentFunction with
  | some f => st.functions ++ [f]
  | none => st.functions

/-! ## ComplexityAnalyzer -/

/-- `calculateFunctionCyclomaticComplexity`: 1 plus one per match of each
decision-point pattern. -/
def calculateFunctionCyclomaticComplexity (functionBody : String) : Nat :=
  1 + reCount (reKw "if") functionBody + reCount reElseIf functionBody +
    reCount (reKw "while") functionBody + reCount (reKw "for") functionBody +
    reCount (reKw "do") functionBody + reCount (reKw "switch") functionBody +
    reCount (reKw "case") functionBody + reCount (reKw "catch") functionBody +
    reCount reAmpAmp functionBody + reCount reOrOr functionBody +
    reCount reTernary functionBody

/-- `calculateFunctionCognitiveComplexity`: line-by-line walk with a
brace-depth counter floored at 0; adds logical operators unconditionally,
the current depth for control-flow / exception lines, and depth × ternary
count. -/
def calculateFunctionCognitiveComplexity (functionBody : String) : Nat :=
  let st := (jsSplitNL functionBody).foldl (fun (st : Nat × Nat) line =>
    let complexity := st.1
    let nestingLevel := st.2
    let trimmedLine := jsTrim line
    let nestingLevel := if line.toList.any (· == '{') then nestingLevel + 1 else nestingLevel
    let nestingLevel := if line.toList.any (· == '}') then nestingLevel - 1 else nestingLevel
    let complexity := complexity + reCount reLogicalOps trimmedLine
    let complexity :=
      if reTestStart reCtrlFlow trimmedLine then complexity + nestingLevel else complexity
    let complexity :=
      if reTestStart reCatchFinally trimmedLine then complexity + nestingLevel else complexity
    let complexity := complexity + reCount reTernary trimmedLine * nestingLevel
    (complexity, nestingLevel)) (0, 0)
  st.1

/-- `calculateMaxNestingDepth`: per line, add the line's `{` count, take the
running maximum, then subtract the line's `}` count. -/
def calculateMaxNestingDepth (functionBody : String) : Int :=
  let st := (jsSplitNL functionBody).foldl (fun (st : Int × Int) line =>
    let currentDepth := st.1
    let maxDepth := st.2
    let openBraces := (countCharIn line '{' : Int)
    let closeBraces := (countCharIn line '}' : Int)
    let currentDepth := currentDepth + openBraces
    let maxDepth := max maxDepth currentDepth
    let currentDepth := currentDepth - closeBraces
    (currentDepth, maxDepth)) (0, 0)
  st.2

/-- The common shape of the four `calculate*` aggregators of the source
(`calculateCyclomaticComplexity`, `calculateCognitiveComplexity`,
`calculateNestingDepth`, `calculateFunctionLength`), which differ only in the
per-function scorer and the violation threshold: per file, extract functions,
score each, accumulate total/maximum/violation/function counts, and record a
per-file average entry when the file contributed at least one function. -/
def aggregateComplexity (files : List DiffFile) (scoreOf : ExtractedFunction → ℚ)
    (threshold : ℚ) : ComplexityScore :=
  let st := files.foldl (fun (st : List FileScore × ℚ × ℚ × Nat × Nat) file =>
    let (fileScores, totalC, maxC, violationsCount, functionCount) := st
    let functions := extractFunctions file.additions file.path
    let inner := functions.foldl
      (fun (acc : List FunctionScore × ℚ × ℚ × Nat × Nat) func =>
        let (fileFunctions, total, maxC, violations, count) := acc
        let complexity := scoreOf func
        (fileFunctions ++ [⟨func.name, func.line, complexity⟩], total + complexity,
         max maxC complexity,
         if threshold < complexity then violations + 1 else violations,
         count + 1))
      (([] : List FunctionScore), totalC, maxC, violationsCount, functionCount)
    let (fileFunctions, totalC, maxC, violationsCount, functionCount) := inner
    let fileScores :=
      if 0 < fileFunctions.length then
        fileScores ++ [⟨file.path,
          (fileFunctions.map (·.score)).sum / (fileFunctions.length : ℚ), fileFunctions⟩]
      else fileScores
    (fileScores, totalC, maxC, violationsCount, functionCount))
    (([] : List FileScore), 0, 0, 0, 0)
  let (fileScores, totalC, maxC, violationsCount, functionCount) := st
  { average := if 0 < functionCount then totalC / (functionCount : ℚ) else 0,
    maximum := maxC, violationsCount := violationsCount, files := fileScores }

/-- `calculateCyclomaticComplexity` (violation threshold 10). -/
def calculateCyclomaticComplexity (files : List DiffFile) : ComplexityScore :=
  aggregateComplexity files
    (fun func => (calculateFunctionCyclomaticComplexity func.body : ℚ)) 10

/-- `calculateCognitiveComplexity` (violation threshold 15). -/
def calculateCognitiveComplexity (files : List DiffFile) : ComplexityScore :=
  aggregateComplexity files
    (fun func => (calculateFunctionCognitiveComplexity func.body : ℚ)) 15

/-- `calculateNestingDepth` (violation threshold 4). -/
def calculateNestingDepth (files : List DiffFile) : ComplexityScore :=
  aggregateComplexity files
    (fun func => ((calculateMaxNestingDepth func.body : Int) : ℚ)) 4

/-- `calculateFunctionLength` (non-blank body lines, violation threshold 50). -/
def calculateFunctionLength (files : List DiffFile) : ComplexityScore :=
  aggregateComplexity files
    (fun func =>
      (((jsSplitNL func.body).filter (fun line => !(jsTrim line).toList.isEmpty)).length : ℚ)) 50

/-! ## DuplicationDetector (`detectCodeDuplication`) -/

/-- One recorded occurrence of a 5-line window: `{ file, lineNumber }`. -/
structure DupOcc where
  file : String
  lineNumber : Nat
deriving Repr, DecidableEq

/-- Append an occurrence to the `Map` entry for `key`, creating the entry at
the end on first insertion (JavaScript `Map` preserves insertion order). -/
def insertGroup (groups : List (String × List DupOcc)) (key : String) (occ : DupOcc) :
    List (String × List DupOcc) :=
  match groups with
  | [] => [(key, [occ])]
  | e :: rest =>
    if e.1 = key then (e.1, e.2 ++ [occ]) :: rest
    else e :: insertGroup rest key occ

/-- The non-blank added lines of a file (`additions.filter(l => l.trim().length > 0)`). -/
def nonBlankAdditions (file : DiffFile) : List String :=
  file.additions.filter (fun l => !(jsTrim l).toList.isEmpty)

/-- The joined 5-line window of `lines` starting at offset `i`. -/
def windowKeyAt (lines : List String) (i : Nat) : String :=
  jsJoin "\n" ((lines.drop i).take 5)

/-- All window keys of a file, in offset order (window size 5, offsets
`0 .. lines.length - 5`). -/
def windowKeys (file : DiffFile) : List String :=
  let lines := nonBlankAdditions file
  (List.range (lines.length + 1 - 5)).map (windowKeyAt lines)

/-- `detectCodeDuplication(files)`: sliding 5-line exact-match windows across
all files; every key recorded at least twice becomes a duplicated block. -/
def detectCodeDuplication (files : List DiffFile) : DuplicationScore :=
  let minBlockSize : Nat := 5
  let lineGroups := files.foldl (fun groups file =>
    let lines := nonBlankAdditions file
    (List.range (lines.length + 1 - minBlockSize)).foldl (fun groups i =>
      insertGroup groups (windowKeyAt lines i) ⟨file.path, i + 1⟩) groups) []
  let dups := lineGroups.filter (fun g => 1 < g.2.length)
  let duplicatedBlocks : List DupBlock := dups.map (fun g =>
    ⟨minBlockSize, g.2.length, dedupFirst (g.2.map (·.file))⟩)
  let totalDuplicatedLines := (dups.map (fun g => minBlockSize * g.2.length)).sum
  let duplicatedBlocksCount := dups.length
  let totalLines := (files.map (·.additions.length)).sum
  let percentage : ℚ :=
    if 0 < totalLines then (totalDuplicatedLines : ℚ) / (totalLines : ℚ) * 100 else 0
  { percentage := percentage, linesCount := totalDuplicatedLines,
    blocksCount := duplicatedBlocksCount, duplicatedBlocks := duplicatedBlocks }

/-! ## DesignHeuristics -/

/-- An identifier extracted from code: `{ name, type, line }`. -/
structure Identifier where
  name : String
  type : String
  line : Nat
deriving Repr, DecidableEq

/-- Source stub: `extractIdentifiers` returns the empty list. -/
def extractIdentifiers (_lines : List String) : List Identifier := []

/-- Source stub: `validateFileName` always returns true. -/
def validateFileName (_path : String) (_language : Option String) : Bool := true

/-- `validateVariableName`: `/^[a-z][a-zA-Z0-9]*$/`. -/
def validateVariableName (name : String) (_language : Option String) : Bool :=
  reFullMatch reLowerCamel name

/-- `validateFunctionName`: `/^[a-z][a-zA-Z0-9]*$/`. -/
def validateFunctionName (name : String) (_language : Option String) : Bool :=
  reFullMatch reLowerCamel name

/-- `validateClassName`: `/^[A-Z][a-zA-Z0-9]*$/`. -/
def validateClassName (name : String) (_language : Option String) : Bool :=
  reFullMatch reUpperCamel name

/-- `analyzeClassComplexity`: non-blank line count as a complexity proxy. -/
def analyzeClassComplexity (lines : List String) : Nat :=
  (lines.filter (fun line => !(jsTrim line).toList.isEmpty)).length

/-- Source stub: `detectModificationPatterns` returns 0. -/
def detectModificationPatterns (_lines : List String) : Nat := 0

/-- `detectHardDependencies`: lines matching `/\bnew\s+\w+/`. -/
def detectHardDependencies (lines : List String) : Nat :=
  (lines.filter (fun line => reTest reNewDep line)).length

/-- `calculateClassSize`: non-blank line count. -/
def calculateClassSize (lines : List String) : Nat :=
  (lines.filter (fun line => !(jsTrim line).toList.isEmpty)).length

/-- Source stub: `detectLongParameterLists` returns the empty list. -/
def detectLongParameterLists (_lines : List String) :
    List (String × Nat × Nat) := []

/-- Source stub: `detectDeadCode` returns the empty list. -/
def detectDeadCode (_lines : List String) : List Nat := []

/-- Source stub: `detectSimpleDuplication` returns the empty list. -/
def detectSimpleDuplication (_lines : List String) : List Nat := []

/-- Source stub: `detectSingletonPattern` returns false. -/
def detectSingletonPattern (_lines : List String) : Bool := false

/-- Source stub: `detectFactoryPattern` returns null. -/
def detectFactoryPattern (_lines : List String) :
    Option (Bool × List Nat × String) := none

/-- Source stub: `detectObserverPattern` returns false. -/
def detectObserverPattern (_lines : List String) : Bool := false

/-- The per-file step of `validateNamingConventions`: check the file name (a
stub that always passes) and each extracted identifier (a stub that extracts
none) against fixed patterns, tallying per-category pass counts, total
checks and violations. -/
def namingStepFile (language : Option String)
    (st : List ConventionViolation × ConventionCategories × Nat × Nat)
    (file : DiffFile) :
    List ConventionViolation × ConventionCategories × Nat × Nat :=
  let (violations, categories, totalChecks, validNames) := st
  let (violations, categories, validNames) :=
    if validateFileName file.path language then
      (violations, { categories with files := categories.files + 1 }, validNames + 1)
    else
      (violations ++ [⟨"file", file.path, 1, "File name does not follow naming conventions"⟩],
       categories, validNames)
  let totalChecks := totalChecks + 1
  (extractIdentifiers file.additions).foldl
    (fun (st : List ConventionViolation × ConventionCategories × Nat × Nat) identifier =>
      let (violations, categories, totalChecks, validNames) := st
      let totalChecks := totalChecks + 1
      if identifier.type == "variable" && validateVariableName identifier.name language then
        (violations, { categories with variables' := categories.variables' + 1 },
         totalChecks, validNames + 1)
      else if identifier.type == "function" && validateFunctionName identifier.name language then
        (violations, { categories with functions := categories.functions + 1 },
         totalChecks, validNames + 1)
      else if identifier.type == "class" && validateClassName identifier.name language then
        (violations, { categories with classes := categories.classes + 1 },
         totalChecks, validNames + 1)
      else
        (violations ++ [⟨identifier.type, file.path, identifier.line,
           identifier.type ++ " '" ++ identifier.name ++ "' does not follow naming conventions"⟩],
         categories, totalChecks, validNames))
    (violations, categories, totalChecks, validNames)

/-- `validateNamingConventions(files, language)`: fold the per-file check and
derive the overall percentage. -/
def validateNamingConventions (files : List DiffFile) (language : Option String) :
    ConventionScore :=
  let st := files.foldl (namingStepFile language) ([], ⟨0, 0, 0, 0⟩, 0, 0)
  let (violations, categories, totalChecks, validNames) := st
  { overall := if 0 < totalChecks then (validNames : ℚ) / (totalChecks : ℚ) * 100 else 100,
    categories := categories, violations := violations }

/-- The per-file SOLID checks of `checkSolidPrinciples`: fixed penalties and
violation records for class-complexity, modification-pattern and
hard-dependency signals. -/
def solidStepFile (st : SolidPrinciples × List SolidViolation) (file : DiffFile) :
    SolidPrinciples × List SolidViolation :=
  let (principles, violations) := st
  let (principles, violations) :=
    if 20 < analyzeClassComplexity file.additions then
      ({ principles with singleResponsibility := principles.singleResponsibility - 10 },
       violations ++ [⟨"Single Responsibility", file.path, 1,
         "Class appears to have multiple responsibilities", "medium"⟩])
    else (principles, violations)
  let (principles, violations) :=
    if 0 < detectModificationPatterns file.additions then
      ({ principles with openClosed := principles.openClosed - 5 },
       violations ++ [⟨"Open/Closed", file.path, 1,
         "Code may require modification instead of extension", "low"⟩])
    else (principles, violations)
  if 0 < detectHardDependencies file.additions then
    ({ principles with dependencyInversion := principles.dependencyInversion - 15 },
     violations ++ [⟨"Dependency Inversion", file.path, 1,
       "Direct dependencies on concrete classes detected", "high"⟩])
  else (principles, violations)

/-- `checkSolidPrinciples(files)`: five principle scores starting at 100,
decremented by fixed penalties per detected signal; overall is the mean of
the five, floored at 0. -/
def checkSolidPrinciples (files : List DiffFile) : SolidScore :=
  let st := files.foldl solidStepFile (⟨100, 100, 100, 100, 100⟩, [])
  let (principles, violations) := st
  let overall := (principles.singleResponsibility + principles.openClosed +
    principles.liskovSubstitution + principles.interfaceSegregation +
    principles.dependencyInversion) / 5
  { overall := max 0 overall, principles := principles, violations := violations }

/-- The code smells `detectCodeSmells` emits for one file: long parameter
lists (stubbed empty), large classes (> 500 non-blank lines), dead code
(stubbed empty). -/
def codeSmellsOfFile (file : DiffFile) : List CodeSmell :=
  (detectLongParameterLists file.additions).map (fun func =>
    ⟨"Long Parameter List", file.path, func.2.1,
     s!"Function '{func.1}' has {func.2.2} parameters", "medium",
     "Consider using parameter object or reducing parameters"⟩) ++
  (if 500 < calculateClassSize file.additions then
    [⟨"Large Class", file.path, 1,
      s!"Class has {calculateClassSize file.additions} lines", "high",
      "Consider breaking down the class into smaller classes"⟩]
   else []) ++
  (detectDeadCode file.additions).map (fun line =>
    ⟨"Dead Code", file.path, line, "Unreachable or unused code detected", "low",
     "Remove unused code"⟩)

/-- `detectCodeSmells(files, language)`: per-file smell records in file order. -/
def detectCodeSmells (files : List DiffFile) (_language : Option String) : List CodeSmell :=
  files.flatMap codeSmellsOfFile

/-- The anti-patterns `detectAntiPatterns` emits for one file: God Object
(> 50 class-complexity proxy), Copy-Paste Programming (stubbed empty
duplicate detector, so never emitted), and Spaghetti Code per function with
cyclomatic complexity > 20. -/
def antiPatternsOfFile (file : DiffFile) : List AntiPattern :=
  (if 50 < analyzeClassComplexity file.additions then
    [⟨"God Object", file.path, [1], "Class appears to know or do too much", "high",
      "Split into multiple classes with specific responsibilities"⟩]
   else []) ++
  (if !(detectSimpleDuplication file.additions).isEmpty then
    [⟨"Copy-Paste Programming", file.path, detectSimpleDuplication file.additions,
      "Duplicated code blocks detected", "medium",
      "Extract common functionality into reusable functions"⟩]
   else []) ++
  (extractFunctions file.additions file.path).flatMap (fun func =>
    let complexity := calculateFunctionCyclomaticComplexity func.body
    if 20 < complexity then
      [⟨"Spaghetti Code", file.path, [func.line],
        s!"Function '{func.name}' has very high complexity ({complexity})", "high",
        "Break down function into smaller, more focused functions"⟩]
    else [])

/-- `detectAntiPatterns(files, language)`: per-file anti-pattern records. -/
def detectAntiPatterns (files : List DiffFile) (_language : Option String) : List AntiPattern :=
  files.flatMap antiPatternsOfFile

/-! ## Language idioms and design patterns -/

/-- A canonical nonnegative-integer JavaScript object key (an array index):
a nonempty digit string with no leading zero (except "0" itself) whose value
is below 2^32 - 1. -/
def jsNumericKey (s : String) : Option Nat :=
  let cs := s.toList
  if cs.isEmpty then none
  else if !cs.all (fun c => '0' ≤ c && c ≤ '9') then none
  else if 1 < cs.length && cs.head? == some '0' then none
  else
    let n := cs.foldl (fun n c => n * 10 + (c.toNat - '0'.toNat)) 0
    if n < 4294967295 then some n else none

/-- Stable ascending insertion by key (insert after equal keys). -/
def insertAscBy {α : Type} (keyOf : α → Nat) (x : α) : List α → List α
  | [] => [x]
  | y :: ys => if keyOf y ≤ keyOf x then y :: insertAscBy keyOf x ys else x :: y :: ys

/-- Stable ascending sort by key. -/
def sortAscBy {α : Type} (keyOf : α → Nat) (l : List α) : List α :=
  l.foldl (fun acc x => insertAscBy keyOf x acc) []

/-- Stable descending insertion by key (insert after greater-or-equal keys),
matching a stable JavaScript `sort((a, b) => keyOf b - keyOf a)`. -/
def insertDescBy {α : Type} (keyOf : α → Nat) (x : α) : List α → List α
  | [] => [x]
  | y :: ys => if keyOf x ≤ keyOf y then y :: insertDescBy keyOf x ys else x :: y :: ys

/-- Stable descending sort by key. -/
def sortDescBy {α : Type} (keyOf : α → Nat) (l : List α) : List α :=
  l.foldl (fun acc x => insertDescBy keyOf x acc) []

/-- JavaScript object enumeration order over an association list without
duplicate keys: canonical numeric keys first in ascending numeric order,
then the remaining keys in insertion order. -/
def jsObjectEntries {α : Type} (m : List (String × α)) : List (String × α) :=
  sortAscBy (fun e => (jsNumericKey e.1).getD 0)
      (m.filter (fun e => (jsNumericKey e.1).isSome)) ++
    m.filter (fun e => (jsNumericKey e.1).isNone)

/-- `Object.values` of an association list regarded as a JavaScript object. -/
def jsObjectValues {α : Type} (m : List (String × α)) : List α :=
  (jsObjectEntries m).map (·.2)

/-- Increment the count for `k` (JavaScript `counts[k] = (counts[k] || 0) + 1`,
preserving object key insertion order). -/
def bumpCount (m : List (String × Nat)) (k : String) : List (String × Nat) :=
  match m with
  | [] => [(k, 1)]
  | e :: rest => if e.1 = k then (e.1, e.2 + 1) :: rest else e :: bumpCount rest k

/-- `detectLanguage(files)`: most common (lowercased) file extension, mapped
through the extension table; ties keep object-enumeration order (the
JavaScript sort is stable). -/
def detectLanguage (files : List DiffFile) : String :=
  let extensions := (files.map (fun f =>
    jsToLower (String.mk ((splitListOn '.' f.path.toList).getLast?.getD [])))).filter
    (fun e => !e.toList.isEmpty)
  if extensions.isEmpty then "unknown"
  else
    let counts := extensions.foldl bumpCount []
    let entries := jsObjectEntries counts
    match sortDescBy (·.2) entries with
    | [] => "unknown"
    | mostCommon :: _ => getLanguageFromPath ("file." ++ mostCommon.1)

/-- Source stub: `validateJavaScriptIdioms` records nothing. -/
def validateJavaScriptIdioms (_file : DiffFile) (idiomUsage : List IdiomUsage) :
    List IdiomUsage := idiomUsage

/-- Source stub: `validatePythonIdioms` records nothing. -/
def validatePythonIdioms (_file : DiffFile) (idiomUsage : List IdiomUsage) :
    List IdiomUsage := idiomUsage

/-- Source stub: `validateJavaIdioms` records nothing. -/
def validateJavaIdioms (_file : DiffFile) (idiomUsage : List IdiomUsage) :
    List IdiomUsage := idiomUsage

/-- `validateLanguageIdioms(files, language)`: dispatch per detected language
(the hint wins unless falsy), then score good usages (the idiom validators
are stubs, so the list stays empty and the overall score is 100). -/
def validateLanguageIdioms (files : List DiffFile) (language : Option String) :
    LanguageIdiomScore :=
  let detectedLanguage :=
    match language with
    | some l => if l.toList.isEmpty then detectLanguage files else l
    | none => detectLanguage files
  let idiomUsage := files.foldl (fun idiomUsage file =>
    if detectedLanguage == "javascript" || detectedLanguage == "typescript" then
      validateJavaScriptIdioms file idiomUsage
    else if detectedLanguage == "python" then validatePythonIdioms file idiomUsage
    else if detectedLanguage == "java" then validateJavaIdioms file idiomUsage
    else idiomUsage) []
  let goodUsage := (idiomUsage.filter (fun u => u.usage == "good")).length
  { overall :=
      if 0 < idiomUsage.length then (goodUsage : ℚ) / (idiomUsage.length : ℚ) * 100 else 100,
    language := detectedLanguage, idiomUsage := idiomUsage }

/-- `analyzeDesignPatterns(files, language)`: singleton/factory/observer
structural detectors per file (all stubs in the source, so no record is ever
emitted). -/
def analyzeDesignPatterns (files : List DiffFile) (_language : Option String) :
    List DesignPatternUsage :=
  files.flatMap (fun file =>
    (if detectSingletonPattern file.additions then
      [⟨"Singleton", "correct", file.path, [1], "Singleton pattern implementation detected"⟩]
     else []) ++
    (match detectFactoryPattern file.additions with
     | some fp =>
       [⟨"Factory", if fp.1 then "correct" else "incorrect", file.path, fp.2.1, fp.2.2⟩]
     | none => []) ++
    (if detectObserverPattern file.additions then
      [⟨"Observer", "correct", file.path, [1], "Observer pattern implementation detected"⟩]
     else []))

/-- `analyzeCodeQuality(diffContent, language?)`: parse the diff once and run
every metric calculator over the parsed files. -/
def analyzeCodeQuality (diffContent : String) (language : Option String) :
    CodeQualityMetrics :=
  let files := parseDiffFiles diffContent
  { cyclomaticComplexity := calculateCyclomaticComplexity files,
    cognitiveComplexity := calculateCognitiveComplexity files,
    nestingDepth := calculateNestingDepth files,
    functionLength := calculateFunctionLength files,
    codeDuplication := detectCodeDuplication files,
    namingConventions := validateNamingConventions files language,
    solidPrinciples := checkSolidPrinciples files,
    codeSmells := detectCodeSmells files language,
    antiPatterns := detectAntiPatterns files language,
    languageIdioms := validateLanguageIdioms files language,
    designPatterns := analyzeDesignPatterns files language }

/-! ## AggregationLayer (`analysis-tools.ts`) -/

/-- Only the `GitHubPR` fields the aggregation layer reads
(`state`, `additions?`, `deletions?`). -/
structure GitHubPR where
  state : String
  additions : Option ℚ
  deletions : Option ℚ
deriving Repr, DecidableEq

/-- `PRMetrics` (the per-change raw counts plus optional code-quality metrics;
the aggregation layer reads no other field). -/
structure PRMetrics where
  testAdditions : ℚ
  docAdditions : ℚ
  securityPatternMatches : ℚ
  totalAdditions : ℚ
  totalDeletions : ℚ
  filesChanged : ℚ
  codeQualityMetrics : Option CodeQualityMetrics
deriving Repr, DecidableEq

structure Risk where
  level : String
  description : String
deriving Repr, DecidableEq

structure PatternAnalysis where
  findings : List String
  recommendations : List String
  risks : List Risk
deriving Repr, DecidableEq

structure ComplexityAnalysisSummary where
  averageCyclomaticComplexity : ℚ
  averageCognitiveComplexity : ℚ
  maxNestingDepth : ℚ
  averageFunctionLength : ℚ
  highComplexityFiles : List String
  recommendations : List String
deriving Repr, DecidableEq

structure MaintainabilityAnalysisSummary where
  duplicationPercentage : ℚ
  namingConventionScore : ℚ
  solidPrinciplesScore : ℚ
  codeSmellsCount : Nat
  criticalIssues : List String
  recommendations : List String
deriving Repr, DecidableEq

structure BestPracticesAnalysisSummary where
  languageIdiomScore : ℚ
  designPatternUsage : Nat
  antiPatternsCount : Nat
  bestPracticeViolations : List String
  recommendations : List String
deriving Repr, DecidableEq

structure CodeQualityAnalysis where
  overallScore : ℚ
  complexityAnalysis : ComplexityAnalysisSummary
  maintainabilityAnalysis : MaintainabilityAnalysisSummary
  bestPracticesAnalysis : BestPracticesAnalysisSummary
deriving Repr, DecidableEq

/-- Render a JavaScript number that is an exact multiple of 1/10 the way
JavaScript prints it ("12" or "12.3"); the finding strings only ever
interpolate `Math.round(x*10)/10`-shaped nonnegative values. -/
def jsShowTenth (q : ℚ) : String :=
  let n := (jsRound (q * 10)).toNat
  if n % 10 = 0 then toString (n / 10)
  else toString (n / 10) ++ "." ++ toString (n % 10)

/-- JavaScript `x.toFixed(1)` for the nonnegative rates it is applied to. -/
def jsToFixed1 (q : ℚ) : String :=
  let n := (jsRound (q * 10)).toNat
  toString (n / 10) ++ "." ++ toString (n % 10)

/-- The values of the `Record<string, PRMetrics>` argument that carry
code-quality metrics (`Object.values(metrics).filter(m => m.codeQualityMetrics)`),
unwrapped (`m.codeQualityMetrics!`). -/
def metricsWithQuality (metrics : List (String × PRMetrics)) : List CodeQualityMetrics :=
  ((jsObjectValues metrics).filter (fun m => m.codeQualityMetrics.isSome)).filterMap
    (·.codeQualityMetrics)

/-- Mean of a list (used only on nonempty lists, as in the source). -/
def avgOf (l : List ℚ) : ℚ := l.sum / (l.length : ℚ)

/-- `analyzePRPatterns(prs, metrics)`: merge-rate, test-coverage, PR-size,
documentation and security checks producing findings, recommendations and
risks in program order. -/
def analyzePRPatterns (prs : List GitHubPR) (metrics : List (String × PRMetrics)) :
    PatternAnalysis :=
  let mergedPRs := (prs.filter (fun pr => pr.state == "MERGED")).length
  let mergeRate : ℚ := if 0 < prs.length then (mergedPRs : ℚ) / (prs.length : ℚ) * 100 else 0
  let st : List String × List String × List Risk :=
    if mergeRate < 50 then
      let rate := jsToFixed1 mergeRate
      ([s!"Low merge rate detected: {rate}%"],
       ["Investigate PR review and merge process"],
       [⟨"high", "Low merge rate indicates potential workflow issues"⟩])
    else ([], [], [])
  let (findings, recommendations, risks) := st
  let metricsArray := jsObjectValues metrics
  let st :=
    if 0 < metricsArray.length then
      let avgTestRatio := (metricsArray.map (fun m =>
        if 0 < m.totalAdditions then m.testAdditions / m.totalAdditions else 0)).sum /
        (metricsArray.length : ℚ)
      if avgTestRatio < 1/5 then
        let pct := jsToFixed1 (avgTestRatio * 100)
        (findings ++ [s!"Low test coverage: {pct}% average test-to-code ratio"],
         recommendations ++ ["Implement mandatory test coverage requirements"],
         risks ++ [⟨"high", "Insufficient test coverage increases regression risk"⟩])
      else (findings, recommendations, risks)
    else (findings, recommendations, risks)
  let (findings, recommendations, risks) := st
  let largePRs := prs.filter (fun pr =>
    1000 < pr.additions.getD 0 + pr.deletions.getD 0)
  let st :=
    if (prs.length : ℚ) * (3/10) < (largePRs.length : ℚ) then
      let n := largePRs.length
      (findings ++ [s!"{n} PRs exceed 1000 changes"],
       recommendations ++ ["Break down large PRs into smaller, focused changes"],
       risks ++ [⟨"medium", "Large PRs are difficult to review effectively"⟩])
    else (findings, recommendations, risks)
  let (findings, recommendations, risks) := st
  let avgDocRatio := (metricsArray.map (fun m =>
      if 0 < m.totalAdditions then m.docAdditions / m.totalAdditions else 0)).sum /
    (max metricsArray.length 1 : ℚ)
  let st2 :=
    if avgDocRatio < 1/20 then
      (findings ++ ["Low documentation updates relative to code changes"],
       recommendations ++ ["Improve documentation practices and requirements"])
    else (findings, recommendations)
  let (findings, recommendations) := st2
  let securityConcerns := metricsArray.filter (fun m => 0 < m.securityPatternMatches)
  let st2 :=
    if 0 < securityConcerns.length then
      let n := securityConcerns.length
      (findings ++ [s!"{n} PRs contain potential security-sensitive changes"],
       recommendations ++ ["Review security-sensitive changes carefully"])
    else (findings, recommendations)
  let (findings, recommendations) := st2
  ⟨findings, recommendations, risks⟩

/-- The `complexityScore` component of the overall score:
`Math.max(0, 100 - (avgCyclomatic*2 + avgCognitive*1.5 + maxNesting*5))`. -/
def cqComplexityScore (mwq : List CodeQualityMetrics) : ℚ :=
  max 0 (100 - (avgOf (mwq.map (·.cyclomaticComplexity.average)) * 2 +
    avgOf (mwq.map (·.cognitiveComplexity.average)) * (3/2) +
    jsMaxList (mwq.map (·.nestingDepth.maximum)) * 5))

/-- The `maintainabilityScore` component:
`(avgNaming + avgSolid + Math.max(0, 100 - avgDuplication*10)) / 3`. -/
def cqMaintainabilityScore (mwq : List CodeQualityMetrics) : ℚ :=
  (avgOf (mwq.map (·.namingConventions.overall)) +
    avgOf (mwq.map (·.solidPrinciples.overall)) +
    max 0 (100 - avgOf (mwq.map (·.codeDuplication.percentage)) * 10)) / 3

/-- The `bestPracticesScore` component:
`Math.max(0, avgLanguageIdiom - totalAntiPatterns*10)`. -/
def cqBestPracticesScore (mwq : List CodeQualityMetrics) : ℚ :=
  max 0 (avgOf (mwq.map (·.languageIdioms.overall)) -
    ((mwq.map (·.antiPatterns.length)).sum : ℚ) * 10)

/-- The weighted overall score before rounding:
`complexityScore*0.4 + maintainabilityScore*0.4 + bestPracticesScore*0.2`. -/
def cqOverallScore (mwq : List CodeQualityMetrics) : ℚ :=
  cqComplexityScore mwq * (2/5) + cqMaintainabilityScore mwq * (2/5) +
    cqBestPracticesScore mwq * (1/5)

/-- `generateCodeQualityAnalysis(metrics)`: aggregate the per-change
code-quality metrics into complexity / maintainability / best-practice
summaries with recommendations, and a weighted overall score
(0.4 / 0.4 / 0.2, each component floored at 0, no upper clamp). -/
def generateCodeQualityAnalysis (metrics : List (String × PRMetrics)) :
    CodeQualityAnalysis :=
  let mwq := metricsWithQuality metrics
  if mwq.isEmpty then
    { overallScore := 0,
      complexityAnalysis := ⟨0, 0, 0, 0, [],
        ["No code quality metrics available for analysis"]⟩,
      maintainabilityAnalysis := ⟨0, 0, 0, 0, [],
        ["No maintainability metrics available for analysis"]⟩,
      bestPracticesAnalysis := ⟨0, 0, 0, [],
        ["No best practices metrics available for analysis"]⟩ }
  else
    let avgCyclomaticComplexity := avgOf (mwq.map (·.cyclomaticComplexity.average))
    let avgCognitiveComplexity := avgOf (mwq.map (·.cognitiveComplexity.average))
    let maxNestingDepth := jsMaxList (mwq.map (·.nestingDepth.maximum))
    let avgFunctionLength := avgOf (mwq.map (·.functionLength.average))
    let highComplexityFiles := mwq.flatMap (fun m =>
      (m.cyclomaticComplexity.files.filter (fun f => 10 < f.score)).map (·.path))
    let avgDuplicationPercentage := avgOf (mwq.map (·.codeDuplication.percentage))
    let avgNamingScore := avgOf (mwq.map (·.namingConventions.overall))
    let avgSolidScore := avgOf (mwq.map (·.solidPrinciples.overall))
    let totalCodeSmells := (mwq.map (·.codeSmells.length)).sum
    let avgLanguageIdiomScore := avgOf (mwq.map (·.languageIdioms.overall))
    let totalAntiPatterns := (mwq.map (·.antiPatterns.length)).sum
    let totalDesignPatterns := (mwq.map (·.designPatterns.length)).sum
    let complexityRecommendations :=
      (if 10 < avgCyclomaticComplexity then
        ["Reduce cyclomatic complexity by breaking down complex functions"] else []) ++
      (if 15 < avgCognitiveComplexity then
        ["Simplify cognitive complexity by reducing nested conditions"] else []) ++
      (if 4 < maxNestingDepth then
        ["Reduce nesting depth by extracting methods or using early returns"] else []) ++
      (if 50 < avgFunctionLength then
        ["Break down long functions into smaller, more focused functions"] else [])
    let maintainabilityRecommendations :=
      (if 5 < avgDuplicationPercentage then
        ["Reduce code duplication by extracting common functionality"] else []) ++
      (if avgNamingScore < 80 then
        ["Improve naming conventions for better code readability"] else []) ++
      (if avgSolidScore < 80 then
        ["Review SOLID principles adherence to improve code design"] else []) ++
      (if 10 < totalCodeSmells then
        ["Address identified code smells to improve maintainability"] else [])
    let bestPracticesRecommendations :=
      (if avgLanguageIdiomScore < 80 then
        ["Follow language-specific idioms and best practices"] else []) ++
      (if 0 < totalAntiPatterns then
        ["Refactor identified anti-patterns to improve code quality"] else [])
    { overallScore := (jsRound (cqOverallScore mwq) : ℚ),
      complexityAnalysis :=
        ⟨(jsRound (avgCyclomaticComplexity * 10) : ℚ) / 10,
         (jsRound (avgCognitiveComplexity * 10) : ℚ) / 10,
         maxNestingDepth,
         (jsRound avgFunctionLength : ℚ),
         dedupFirst highComplexityFiles,
         complexityRecommendations⟩,
      maintainabilityAnalysis :=
        ⟨(jsRound (avgDuplicationPercentage * 10) : ℚ) / 10,
         (jsRound avgNamingScore : ℚ),
         (jsRound avgSolidScore : ℚ),
         totalCodeSmells, [],
         maintainabilityRecommendations⟩,
      bestPracticesAnalysis :=
        ⟨(jsRound avgLanguageIdiomScore : ℚ),
         totalDesignPatterns, totalAntiPatterns, [],
         bestPracticesRecommendations⟩ }

/-- `AnalysisConfig` (the aggregation layer reads `reviewFocus`, `prSelection`). -/
structure AnalysisConfig where
  reviewFocus : String
  prSelection : String
  username : Option String
  repoFilter : Option String
  languageFilter : Option String
  outputDir : Option String
deriving Repr, DecidableEq

/-- One window of the externally supplied activity summary.  The source keeps
`mergeRate` as a string and applies `parseFloat(x || '0')`; the embedding
carries the parsed rational directly (`0` for a missing window). -/
structure ActivityWindow where
  mergeRate : ℚ
  totalPRs : Option ℚ
deriving Repr, DecidableEq

/-- `activityData.summary` with its optional 30- and 90-day windows. -/
structure ActivitySummary where
  last30Days : Option ActivityWindow
  last90Days : Option ActivityWindow
deriving Repr, DecidableEq

/-- The `metrics` sub-record of `AnalysisResult`. -/
structure AnalysisMetrics where
  totalAdditions : ℚ
  totalDeletions : ℚ
  totalTestAdditions : ℚ
  totalDocAdditions : ℚ
  testToCodeRatio : ℚ
  mergeRate : ℚ
  averagePRSize : ℚ
  averageComplexity : ℚ
  codeQualityScore : ℚ
  maintainabilityIndex : ℚ
deriving Repr, DecidableEq

structure AnalysisResult where
  totalPRsAnalyzed : Nat
  reviewFocus : String
  selectionCriteria : String
  analysisDate : String
  metrics : AnalysisMetrics
  findings : List String
  recommendations : List String
  risks : List Risk
  codeQuality : CodeQualityAnalysis
deriving Repr, DecidableEq

/-- `generateAnalysisResult(prs, metrics, config, activityData?)`.
`analysisDate` stands for `new Date().toISOString().split('T')[0]`, the one
environment-supplied value, passed in explicitly to keep the fold pure. -/
def generateAnalysisResult (prs : List GitHubPR) (metrics : List (String × PRMetrics))
    (config : AnalysisConfig) (activityData : Option ActivitySummary)
    (analysisDate : String) : AnalysisResult :=
  let metricsArray := jsObjectValues metrics
  let totalAdditions := (metricsArray.map (·.totalAdditions)).sum
  let totalDeletions := (metricsArray.map (·.totalDeletions)).sum
  let totalTestAdditions := (metricsArray.map (·.testAdditions)).sum
  let totalDocAdditions := (metricsArray.map (·.docAdditions)).sum
  let mergedPRs := (prs.filter (fun pr => pr.state == "MERGED")).length
  let mergeRate : ℚ := if 0 < prs.length then (mergedPRs : ℚ) / (prs.length : ℚ) * 100 else 0
  let timeBasedFindings : List String :=
    match activityData with
    | some summary =>
      let last30DayRate := match summary.last30Days with | some w => w.mergeRate | none => 0
      let last90DayRate := match summary.last90Days with | some w => w.mergeRate | none => 0
      let tf :=
        if last30DayRate < last90DayRate - 10 then
          let a := jsShowTenth last30DayRate
          let b := jsShowTenth last90DayRate
          [s!"Merge rate declining: {a}% (30d) vs {b}% (90d)"]
        else if last90DayRate + 10 < last30DayRate then
          let a := jsShowTenth last30DayRate
          let b := jsShowTenth last90DayRate
          [s!"Merge rate improving: {a}% (30d) vs {b}% (90d)"]
        else []
      tf ++
        (if (match summary.last30Days with
             | some w => match w.totalPRs with | some t => decide (t < 5) | none => false
             | none => false) then
          ["Low activity in the last 30 days"]
         else [])
    | none => []
  let averagePRSize : ℚ :=
    if 0 < prs.length then
      (prs.map (fun pr => pr.additions.getD 0 + pr.deletions.getD 0)).sum / (prs.length : ℚ)
    else 0
  let testToCodeRatio : ℚ :=
    if 0 < totalAdditions then totalTestAdditions / totalAdditions * 100 else 0
  let analysis := analyzePRPatterns prs metrics
  let codeQuality := generateCodeQualityAnalysis metrics
  let codeQualityFindings : List String :=
    (if codeQuality.overallScore < 70 then
      let sc := jsShowTenth codeQuality.overallScore
      [s!"Low code quality score: {sc}/100"]
     else []) ++
    (if 10 < codeQuality.complexityAnalysis.averageCyclomaticComplexity then
      let a := jsShowTenth codeQuality.complexityAnalysis.averageCyclomaticComplexity
      [s!"High cyclomatic complexity: {a} average"]
     else []) ++
    (if 5 < codeQuality.maintainabilityAnalysis.duplicationPercentage then
      let d := jsShowTenth codeQuality.maintainabilityAnalysis.duplicationPercentage
      [s!"Code duplication detected: {d}%"]
     else []) ++
    (if 0 < codeQuality.bestPracticesAnalysis.antiPatternsCount then
      let n := codeQuality.bestPracticesAnalysis.antiPatternsCount
      [s!"{n} anti-patterns detected"]
     else [])
  let allFindings := analysis.findings ++ timeBasedFindings ++ codeQualityFindings
  let averageComplexity := codeQuality.complexityAnalysis.averageCyclomaticComplexity
  let maintainabilityIndex := (codeQuality.maintainabilityAnalysis.namingConventionScore +
    codeQuality.maintainabilityAnalysis.solidPrinciplesScore) / 2
  { totalPRsAnalyzed := prs.length,
    reviewFocus := config.reviewFocus,
    selectionCriteria := config.prSelection,
    analysisDate := analysisDate,
    metrics := ⟨totalAdditions, totalDeletions, totalTestAdditions, totalDocAdditions,
      testToCodeRatio, mergeRate, averagePRSize, averageComplexity,
      codeQuality.overallScore, maintainabilityIndex⟩,
    findings := allFindings,
    recommendations := analysis.recommendations,
    risks := analysis.risks,
    codeQuality := codeQuality }

/-! ## PerformanceAnalyzer insight generation (`PerformanceAnalysisTools`) -/

/-- `PerformanceIssues`: sixteen named nonnegative counters. -/
structure PerformanceIssues where
  nPlusOneQueries : Nat
  inefficientJoins : Nat
  missingIndexSuggestions : Nat
  queryOptimizationOpportunities : Nat
  algorithmicComplexityIssues : Nat
  memoryLeakPatterns : Nat
  inefficientLoops : Nat
  resourceManagementIssues : Nat
  blockingOperations : Nat
  asyncAwaitIssues : Nat
  eventLoopBlocking : Nat
  performanceAntiPatterns : Nat
  bundleSizeIssues : Nat
  renderPerformanceIssues : Nat
  memoryUsageIssues : Nat
  networkOptimizationIssues : Nat
deriving Repr, DecidableEq

structure PerformanceInsights where
  findings : List String
  recommendations : List String
  risks : List Risk
deriving Repr, DecidableEq

/-- `generatePerformanceInsights(issues)`: one finding (and recommendation,
and sometimes risk) per nonzero counter among the ten the source inspects,
in program order. -/
def generatePerformanceInsights (issues : PerformanceIssues) : PerformanceInsights :=
  let b1 : PerformanceInsights :=
    if 0 < issues.nPlusOneQueries then
      let n := issues.nPlusOneQueries
      ⟨[s!"{n} potential N+1 query patterns detected"],
       ["Review query patterns and consider using eager loading or batching"],
       [⟨"high", "N+1 queries can severely impact database performance under load"⟩]⟩
    else ⟨[], [], []⟩
  let b2 : PerformanceInsights :=
    if 0 < issues.inefficientJoins then
      let n := issues.inefficientJoins
      ⟨[s!"{n} potentially inefficient join patterns found"],
       ["Optimize join queries and ensure proper indexing"],
       [⟨"medium", "Inefficient joins can cause slow query performance"⟩]⟩
    else ⟨[], [], []⟩
  let b3 : PerformanceInsights :=
    if 0 < issues.missingIndexSuggestions then
      let n := issues.missingIndexSuggestions
      ⟨[s!"{n} queries that might benefit from indexes"],
       ["Consider adding database indexes for frequently queried columns"], []⟩
    else ⟨[], [], []⟩
  let b4 : PerformanceInsights :=
    if 0 < issues.algorithmicComplexityIssues then
      let n := issues.algorithmicComplexityIssues
      ⟨[s!"{n} potentially high-complexity algorithms detected"],
       ["Review algorithm efficiency and consider optimization"],
       [⟨"medium", "High algorithmic complexity can cause performance bottlenecks"⟩]⟩
    else ⟨[], [], []⟩
  let b5 : PerformanceInsights :=
    if 0 < issues.memoryLeakPatterns then
      let n := issues.memoryLeakPatterns
      ⟨[s!"{n} potential memory leak patterns found"],
       ["Review memory management and ensure proper cleanup"],
       [⟨"high", "Memory leaks can cause application instability and crashes"⟩]⟩
    else ⟨[], [], []⟩
  let b6 : PerformanceInsights :=
    if 0 < issues.inefficientLoops then
      let n := issues.inefficientLoops
      ⟨[s!"{n} inefficient loop patterns detected"],
       ["Consider optimizing loops or using more efficient data structures"], []⟩
    else ⟨[], [], []⟩
  let b7 : PerformanceInsights :=
    if 0 < issues.blockingOperations then
      let n := issues.blockingOperations
      ⟨[s!"{n} blocking operations detected in async context"],
       ["Replace blocking operations with async alternatives"],
       [⟨"high", "Blocking operations can freeze the event loop and degrade performance"⟩]⟩
    else ⟨[], [], []⟩
  let b8 : PerformanceInsights :=
    if 0 < issues.asyncAwaitIssues then
      let n := issues.asyncAwaitIssues
      ⟨[s!"{n} async/await pattern issues found"],
       ["Review async/await usage for proper error handling and performance"], []⟩
    else ⟨[], [], []⟩
  let b9 : PerformanceInsights :=
    if 0 < issues.bundleSizeIssues then
      let n := issues.bundleSizeIssues
      ⟨[s!"{n} potential bundle size optimization opportunities"],
       ["Consider code splitting, tree shaking, or lazy loading"], []⟩
    else ⟨[], [], []⟩
  let b10 : PerformanceInsights :=
    if 0 < issues.renderPerformanceIssues then
      let n := issues.renderPerformanceIssues
      ⟨[s!"{n} potential render performance issues"],
       ["Review component rendering patterns and consider memoization"], []⟩
    else ⟨[], [], []⟩
  ⟨b1.findings ++ b2.findings ++ b3.findings ++ b4.findings ++ b5.findings ++
     b6.findings ++ b7.findings ++ b8.findings ++ b9.findings ++ b10.findings,
   b1.recommendations ++ b2.recommendations ++ b3.recommendations ++
     b4.recommendations ++ b5.recommendations ++ b6.recommendations ++
     b7.recommendations ++ b8.recommendations ++ b9.recommendations ++
     b10.recommendations,
   b1.risks ++ b2.risks ++ b3.risks ++ b4.risks ++ b5.risks ++ b6.risks ++
     b7.risks ++ b8.risks ++ b9.risks ++ b10.risks⟩

/-! ## Specification-side definitions used to state claims -/

/-- One step of the spec's nesting counter (§4.3: "the maximum value ever
reached by a running open-minus-close brace counter over the body"):
state is (current counter, maximum ever reached); any character other than a
brace (including the newline) leaves the state unchanged. -/
def braceStep (st : Int × Int) (c : Char) : Int × Int :=
  if c = '{' then (st.1 + 1, max st.2 (st.1 + 1))
  else if c = '}' then (st.1 - 1, max st.2 (st.1 - 1))
  else st

/-- The spec's nesting depth of a body: the maximum value reached by the
running open-minus-close brace counter over the body's characters. -/
def specNestingDepth (body : String) : Int :=
  (body.toList.foldl braceStep (0, 0)).2

/-- On one line, every opening brace occurs before every closing brace. -/
def opensBeforeCloses : List Char → Bool
  | [] => true
  | c :: rest => if c = '}' then rest.all (· ≠ '{') else opensBeforeCloses rest

/-- The body's braces are balanced: the running counter never goes negative
and ends at zero. -/
def bracesBalanced (body : String) : Bool :=
  let st := body.toList.foldl (fun (st : Int × Bool) c =>
    let cur := st.1 + (if c = '{' then 1 else if c = '}' then (-1 : Int) else 0)
    (cur, st.2 && decide (0 ≤ cur))) (0, true)
  st.2 && decide (st.1 = 0)

/-- The input starts with a word-delimited `if` given the previous
character: the head shape `/\bif\b/` recognizes. -/
def ifTokenHead (pv : Option Char) (s : List Char) : Bool :=
  match s with
  | c1 :: c2 :: t =>
    c1 == 'i' && c2 == 'f' &&
      !(match pv with | some c => isWordChar c | none => false) &&
      !(match t with | c :: _ => isWordChar c | [] => false)
  | _ => false

/-- Position `p` of `cs` holds the token `if`: the characters `i` `f` with no
word character adjacent on either side. -/
def isIfTokenAt (cs : List Char) (p : Nat) : Bool :=
  cs.get? p == some 'i' && cs.get? (p + 1) == some 'f' &&
    !(match prevCharAt cs p with | some c => isWordChar c | none => false) &&
    !(match cs.get? (p + 2) with | some c => isWordChar c | none => false)

/-- The number of occurrences of the token `if` in a body. -/
def ifTokenCount (body : String) : Nat :=
  ((Finset.range body.toList.length).filter
    (fun p => isIfTokenAt body.toList p = true)).card

/-- The documented shape of a `CodeQualityMetrics` record (§3: counters and
averages nonnegative; the naming / SOLID / idiom scores are percentages in
[0, 100] by construction; the duplication percentage has no upper clamp). -/
def WellFormedCQM (m : CodeQualityMetrics) : Prop :=
  0 ≤ m.cyclomaticComplexity.average ∧ 0 ≤ m.cognitiveComplexity.average ∧
  0 ≤ m.nestingDepth.maximum ∧ 0 ≤ m.functionLength.average ∧
  0 ≤ m.codeDuplication.percentage ∧
  0 ≤ m.namingConventions.overall ∧ m.namingConventions.overall ≤ 100 ∧
  0 ≤ m.solidPrinciples.overall ∧ m.solidPrinciples.overall ≤ 100 ∧
  0 ≤ m.languageIdioms.overall ∧ m.languageIdioms.overall ≤ 100

/-- A concrete well-formed `CodeQualityMetrics` record with average
cyclomatic complexity 15, used to instantiate hypotheses. -/
def sampleCQM : CodeQualityMetrics :=
  { cyclomaticComplexity := ⟨15, 15, 1, []⟩,
    cognitiveComplexity := ⟨0, 0, 0, []⟩,
    nestingDepth := ⟨0, 0, 0, []⟩,
    functionLength := ⟨0, 0, 0, []⟩,
    codeDuplication := ⟨0, 0, 0, []⟩,
    namingConventions := ⟨100, ⟨0, 0, 0, 0⟩, []⟩,
    solidPrinciples := ⟨100, ⟨100, 100, 100, 100, 100⟩, []⟩,
    codeSmells := [], antiPatterns := [],
    languageIdioms := ⟨100, "typescript", []⟩, designPatterns := [] }

/-- A per-change metrics record carrying `sampleCQM`. -/
def samplePRMetrics : PRMetrics := ⟨0, 0, 0, 0, 0, 0, some sampleCQM⟩

/-- The SOLID violations `checkSolidPrinciples` emits for a single file, in
emission order (single-responsibility, open/closed, dependency-inversion). -/
def solidViolationsOfFile (file : DiffFile) : List SolidViolation :=
  (if 20 < analyzeClassComplexity file.additions then
    [⟨"Single Responsibility", file.path, 1,
      "Class appears to have multiple responsibilities", "medium"⟩]
   else []) ++
  (if 0 < detectModificationPatterns file.additions then
    [⟨"Open/Closed", file.path, 1,
      "Code may require modification instead of extension", "low"⟩]
   else []) ++
  (if 0 < detectHardDependencies file.additions then
    [⟨"Dependency Inversion", file.path, 1,
      "Direct dependencies on concrete classes detected", "high"⟩]
   else [])

/-- The occurrence list the duplication map holds for a key. -/
def lookupOccs (key : String) (groups : List (String × List DupOcc)) : List DupOcc :=
  match groups.find? (fun e => e.1 = key) with
  | some e => e.2
  | none => []

/-- The occurrences of window key `key` that one file contributes to the
duplication map, in offset order. -/
def keyOccsOfFile (key : String) (f : DiffFile) : List DupOcc :=
  ((List.range ((nonBlankAdditions f).length + 1 - 5)).filter
      (fun i => windowKeyAt (nonBlankAdditions f) i == key)).map
    (fun i => (⟨f.path, i + 1⟩ : DupOcc))

/-! ## Claim theorems -/

/-- C1: For the empty diff string, `analyzeCodeQuality` returns metrics in
which every complexity metric (cyclomatic, cognitive, nesting depth,
function length) has average 0, maximum 0, zero violations and an empty
per-file list; being a total function, it raises no error. -/
theorem analyzeCodeQuality_empty_diff (language : Option String) :
    ((analyzeCodeQuality "" language).cyclomaticComplexity.average = 0 ∧
     (analyzeCodeQuality "" language).cyclomaticComplexity.maximum = 0 ∧
     (analyzeCodeQuality "" language).cyclomaticComplexity.violationsCount = 0 ∧
     (analyzeCodeQuality "" language).cyclomaticComplexity.files = []) ∧
    ((analyzeCodeQuality "" language).cognitiveComplexity.average = 0 ∧
     (analyzeCodeQuality "" language).cognitiveComplexity.maximum = 0 ∧
     (analyzeCodeQuality "" language).cognitiveComplexity.violationsCount = 0 ∧
     (analyzeCodeQuality "" language).cognitiveComplexity.files = []) ∧
    ((analyzeCodeQuality "" language).nestingDepth.average = 0 ∧
     (analyzeCodeQuality "" language).nestingDepth.maximum = 0 ∧
     (analyzeCodeQuality "" language).nestingDepth.violationsCount = 0 ∧
     (analyzeCodeQuality "" language).nestingDepth.files = []) ∧
    ((analyzeCodeQuality "" language).functionLength.average = 0 ∧
     (analyzeCodeQuality "" language).functionLength.maximum = 0 ∧
     (analyzeCodeQuality "" language).functionLength.violationsCount = 0 ∧
     (analyzeCodeQuality "" language).functionLength.files = []) :=
  ⟨⟨rfl, rfl, rfl, rfl⟩, ⟨rfl, rfl, rfl, rfl⟩, ⟨rfl, rfl, rfl, rfl⟩, ⟨rfl, rfl, rfl, rfl⟩⟩

/-- C5: `generateAnalysisResult` over an empty change list and empty
per-change metrics yields mergeRate 0, averagePRSize 0 and testToCodeRatio 0. -/
theorem generateAnalysisResult_empty (config : AnalysisConfig) (today : String) :
    (generateAnalysisResult [] [] config none today).metrics.mergeRate = 0 ∧
    (generateAnalysisResult [] [] config none today).metrics.averagePRSize = 0 ∧
    (generateAnalysisResult [] [] config none today).metrics.testToCodeRatio = 0 :=
  ⟨rfl, rfl, rfl⟩

/-- C6: a `PerformanceIssues` record with all sixteen counters at 0 makes
`generatePerformanceInsights` return empty findings, recommendations and
risks. -/
theorem generatePerformanceInsights_all_zero (issues : PerformanceIssues)
    (h1 : issues.nPlusOneQueries = 0) (h2 : issues.inefficientJoins = 0)
    (h3 : issues.missingIndexSuggestions = 0)
    (h4 : issues.queryOptimizationOpportunities = 0)
    (h5 : issues.algorithmicComplexityIssues = 0) (h6 : issues.memoryLeakPatterns = 0)
    (h7 : issues.inefficientLoops = 0) (h8 : issues.resourceManagementIssues = 0)
    (h9 : issues.blockingOperations = 0) (h10 : issues.asyncAwaitIssues = 0)
    (h11 : issues.eventLoopBlocking = 0) (h12 : issues.performanceAntiPatterns = 0)
    (h13 : issues.bundleSizeIssues = 0) (h14 : issues.renderPerformanceIssues = 0)
    (h15 : issues.memoryUsageIssues = 0) (h16 : issues.networkOptimizationIssues = 0) :
    generatePerformanceInsights issues = ⟨[], [], []⟩ := by
  cases issues
  simp_all [generatePerformanceInsights]

/-- Witness for C6 at the all-zero record. -/
theorem generatePerformanceInsights_all_zero_witness :
    generatePerformanceInsights ⟨0, 0, 0, 0, 0, 0, 0, 0, 0, 0, 0, 0, 0, 0, 0, 0⟩ =
      ⟨[], [], []⟩ :=
  generatePerformanceInsights_all_zero ⟨0, 0, 0, 0, 0, 0, 0, 0, 0, 0, 0, 0, 0, 0, 0, 0⟩
    rfl rfl rfl rfl rfl rfl rfl rfl rfl rfl rfl rfl rfl rfl rfl rfl

/-- C8: `analyzeCodeQuality` is deterministic with no hidden state: across
any sequence of calls, equal (diff text, language hint) inputs give equal
outputs. -/
theorem analyzeCodeQuality_deterministic (inputs : List (String × Option String))
    (i j : Nat) (h : inputs.get? i = inputs.get? j) :
    (inputs.map (fun p => analyzeCodeQuality p.1 p.2)).get? i =
      (inputs.map (fun p => analyzeCodeQuality p.1 p.2)).get? j := by
  simp only [List.get?_map, h]

/-- Witness for C8: two identical calls in a two-call sequence agree. -/
theorem analyzeCodeQuality_deterministic_witness :
    ([("", none), ("", none)] : List (String × Option String)).get? 0 =
      ([("", none), ("", none)] : List (String × Option String)).get? 1 ∧
    (([("", none), ("", none)] : List (String × Option String)).map
        (fun p => analyzeCodeQuality p.1 p.2)).get? 0 =
      (([("", none), ("", none)] : List (String × Option String)).map
        (fun p => analyzeCodeQuality p.1 p.2)).get? 1 :=
  ⟨rfl, analyzeCodeQuality_deterministic [("", none), ("", none)] 0 1 rfl⟩

/-- C7: whenever the per-change code-quality metrics average to a cyclomatic
complexity of 15, the produced code-quality analysis includes the
recommendation "Reduce cyclomatic complexity by breaking down complex
functions". -/
theorem generateCodeQualityAnalysis_cyclomatic_recommendation
    (metrics : List (String × PRMetrics))
    (hne : metricsWithQuality metrics ≠ [])
    (havg : avgOf ((metricsWithQuality metrics).map (·.cyclomaticComplexity.average)) = 15) :
    "Reduce cyclomatic complexity by breaking down complex functions" ∈
      (generateCodeQualityAnalysis metrics).complexityAnalysis.recommendations := by
  have hni : (metricsWithQuality metrics).isEmpty = false := by
    simpa [List.isEmpty_iff] using hne
  simp only [generateCodeQualityAnalysis, hni, Bool.false_eq_true, if_false, havg]
  norm_num

/-- Witness for C7 at a one-change record with average cyclomatic 15. -/
theorem generateCodeQualityAnalysis_cyclomatic_recommendation_witness :
    (metricsWithQuality [("pr1", samplePRMetrics)] ≠ [] ∧
     avgOf ((metricsWithQuality [("pr1", samplePRMetrics)]).map
       (·.cyclomaticComplexity.average)) = 15) ∧
    "Reduce cyclomatic complexity by breaking down complex functions" ∈
      (generateCodeQualityAnalysis [("pr1", samplePRMetrics)]).complexityAnalysis.recommendations := by
  have h1 : metricsWithQuality [("pr1", samplePRMetrics)] = [sampleCQM] := rfl
  have h2 : avgOf ((metricsWithQuality [("pr1", samplePRMetrics)]).map
      (·.cyclomaticComplexity.average)) = 15 := by
    rw [h1]; norm_num [avgOf, sampleCQM]
  exact ⟨⟨by simp [h1], h2⟩,
    generateCodeQualityAnalysis_cyclomatic_recommendation _ (by simp [h1]) h2⟩

/-- Mean of a nonempty list is at most any upper bound of its elements. -/
theorem avgOf_le {l : List ℚ} {b : ℚ} (hne : l ≠ []) (h : ∀ x ∈ l, x ≤ b) :
    avgOf l ≤ b := by
  have hlen : 0 < (l.length : ℚ) := by
    have := List.length_pos.mpr hne
    exact_mod_cast this
  have hsum : l.sum ≤ (l.length : ℚ) * b := by
    have := List.sum_le_card_nsmul l b h
    simpa [nsmul_eq_mul] using this
  rw [avgOf, div_le_iff hlen]
  linarith [hsum]

/-- Mean of a nonempty list is at least any lower bound of its elements. -/
theorem le_avgOf {l : List ℚ} {a : ℚ} (hne : l ≠ []) (h : ∀ x ∈ l, a ≤ x) :
    a ≤ avgOf l := by
  have hlen : 0 < (l.length : ℚ) := by
    have := List.length_pos.mpr hne
    exact_mod_cast this
  have hsum : (l.length : ℚ) * a ≤ l.sum := by
    have := List.card_nsmul_le_sum l a h
    simpa [nsmul_eq_mul] using this
  rw [avgOf, le_div_iff hlen]
  linarith [hsum]

/-- A fold of `max` dominates its seed. -/
theorem le_foldl_max (a : ℚ) (l : List ℚ) : a ≤ l.foldl max a := by
  induction l generalizing a with
  | nil => exact le_refl a
  | cons y ys ih => exact le_trans (le_max_left a y) (ih (max a y))

/-- `jsMaxList` of a nonempty list of nonnegatives is nonnegative. -/
theorem jsMaxList_nonneg {l : List ℚ} (hne : l ≠ []) (h : ∀ x ∈ l, 0 ≤ x) :
    0 ≤ jsMaxList l := by
  match l, hne with
  | x :: xs, _ =>
    exact le_trans (h x (by simp)) (le_foldl_max x xs)

/-- `Math.round` keeps a value of [0, 100] inside [0, 100]. -/
theorem jsRound_bounds {x : ℚ} (h0 : 0 ≤ x) (h100 : x ≤ 100) :
    0 ≤ (jsRound x : ℚ) ∧ (jsRound x : ℚ) ≤ 100 := by
  constructor
  · have : (0 : ℤ) ≤ jsRound x := by
      rw [jsRound, Int.le_floor]
      push_cast
      linarith
    exact_mod_cast this
  · have : jsRound x ≤ (100 : ℤ) := by
      have hlt : jsRound x < 101 := by
        rw [jsRound, Int.floor_lt]
        push_cast
        linarith
      omega
    exact_mod_cast this

/-- C10: the overall code-quality score lies in [0, 100] for every per-change
metrics record whose code-quality metrics have the documented shape: each
weighted component (complexity, maintainability, best practices) is
nonnegative and at most 100, so the weighted average stays in range even
without a final clamp. -/
theorem generateCodeQualityAnalysis_score_bounds (metrics : List (String × PRMetrics))
    (hwf : ∀ m ∈ metricsWithQuality metrics, WellFormedCQM m) :
    0 ≤ (generateCodeQualityAnalysis metrics).overallScore ∧
      (generateCodeQualityAnalysis metrics).overallScore ≤ 100 := by
  by_cases hne : metricsWithQuality metrics = []
  · simp [generateCodeQualityAnalysis, hne]
  · have hni : (metricsWithQuality metrics).isEmpty = false := by
      simpa [List.isEmpty_iff] using hne
    set mwq := metricsWithQuality metrics with hmwq
    have hcs : 0 ≤ cqComplexityScore mwq ∧ cqComplexityScore mwq ≤ 100 := by
      constructor
      · exact le_max_left 0 _
      · have hcy : 0 ≤ avgOf (mwq.map (·.cyclomaticComplexity.average)) := by
          apply le_avgOf (by simpa using hne)
          intro x hx
          obtain ⟨m, hm, rfl⟩ := List.mem_map.mp hx
          exact (hwf m hm).1
        have hco : 0 ≤ avgOf (mwq.map (·.cognitiveComplexity.average)) := by
          apply le_avgOf (by simpa using hne)
          intro x hx
          obtain ⟨m, hm, rfl⟩ := List.mem_map.mp hx
          exact (hwf m hm).2.1
        have hmn : 0 ≤ jsMaxList (mwq.map (·.nestingDepth.maximum)) := by
          apply jsMaxList_nonneg (by simpa using hne)
          intro x hx
          obtain ⟨m, hm, rfl⟩ := List.mem_map.mp hx
          exact (hwf m hm).2.2.1
        rw [cqComplexityScore]
        apply max_le <;> nlinarith
    have hms : 0 ≤ cqMaintainabilityScore mwq ∧ cqMaintainabilityScore mwq ≤ 100 := by
      have hna : 0 ≤ avgOf (mwq.map (·.namingConventions.overall)) ∧
          avgOf (mwq.map (·.namingConventions.overall)) ≤ 100 := by
        constructor
        · apply le_avgOf (by simpa using hne)
          intro x hx
          obtain ⟨m, hm, rfl⟩ := List.mem_map.mp hx
          exact (hwf m hm).2.2.2.2.2.1
        · apply avgOf_le (by simpa using hne)
          intro x hx
          obtain ⟨m, hm, rfl⟩ := List.mem_map.mp hx
          exact (hwf m hm).2.2.2.2.2.2.1
      have hso : 0 ≤ avgOf (mwq.map (·.solidPrinciples.overall)) ∧
          avgOf (mwq.map (·.solidPrinciples.overall)) ≤ 100 := by
        constructor
        · apply le_avgOf (by simpa using hne)
          intro x hx
          obtain ⟨m, hm, rfl⟩ := List.mem_map.mp hx
          exact (hwf m hm).2.2.2.2.2.2.2.1
        · apply avgOf_le (by simpa using hne)
          intro x hx
          obtain ⟨m, hm, rfl⟩ := List.mem_map.mp hx
          exact (hwf m hm).2.2.2.2.2.2.2.2.1
      have hdup : 0 ≤ avgOf (mwq.map (·.codeDuplication.percentage)) := by
        apply le_avgOf (by simpa using hne)
        intro x hx
        obtain ⟨m, hm, rfl⟩ := List.mem_map.mp hx
        exact (hwf m hm).2.2.2.2.1
      have hclamp : 0 ≤ max 0 (100 - avgOf (mwq.map (·.codeDuplication.percentage)) * 10) ∧
          max 0 (100 - avgOf (mwq.map (·.codeDuplication.percentage)) * 10) ≤ 100 := by
        constructor
        · exact le_max_left 0 _
        · apply max_le <;> nlinarith
      rw [cqMaintainabilityScore]
      constructor <;> nlinarith [hna.1, hna.2, hso.1, hso.2, hclamp.1, hclamp.2]
    have hbp : 0 ≤ cqBestPracticesScore mwq ∧ cqBestPracticesScore mwq ≤ 100 := by
      have hid : 0 ≤ avgOf (mwq.map (·.languageIdioms.overall)) ∧
          avgOf (mwq.map (·.languageIdioms.overall)) ≤ 100 := by
        constructor
        · apply le_avgOf (by simpa using hne)
          intro x hx
          obtain ⟨m, hm, rfl⟩ := List.mem_map.mp hx
          exact (hwf m hm).2.2.2.2.2.2.2.2.2.1
        · apply avgOf_le (by simpa using hne)
          intro x hx
          obtain ⟨m, hm, rfl⟩ := List.mem_map.mp hx
          exact (hwf m hm).2.2.2.2.2.2.2.2.2.2
      have hta : (0 : ℚ) ≤ ((mwq.map (·.antiPatterns.length)).sum : ℚ) := by
        apply List.sum_nonneg
        intro x hx
        obtain ⟨m, hm, rfl⟩ := List.mem_map.mp hx
        positivity
      rw [cqBestPracticesScore]
      constructor
      · exact le_max_left 0 _
      · apply max_le <;> nlinarith [hid.1, hid.2]
    have hov : 0 ≤ cqOverallScore mwq ∧ cqOverallScore mwq ≤ 100 := by
      rw [cqOverallScore]
      constructor <;> nlinarith [hcs.1, hcs.2, hms.1, hms.2, hbp.1, hbp.2]
    have : (generateCodeQualityAnalysis metrics).overallScore =
        (jsRound (cqOverallScore mwq) : ℚ) := by
      simp only [generateCodeQualityAnalysis, ← hmwq, hni, Bool.false_eq_true, if_false]
    rw [this]
    exact jsRound_bounds hov.1 hov.2

/-- Witness for C10 at the empty metrics record. -/
theorem generateCodeQualityAnalysis_score_bounds_witness :
    (∀ m ∈ metricsWithQuality [], WellFormedCQM m) ∧
    (0 ≤ (generateCodeQualityAnalysis []).overallScore ∧
      (generateCodeQualityAnalysis []).overallScore ≤ 100) := by
  have h0 : metricsWithQuality ([] : List (String × PRMetrics)) = [] := rfl
  refine ⟨?_, generateCodeQualityAnalysis_score_bounds [] ?_⟩ <;>
    · rw [h0]; intro m hm; cases hm

/-- `splitListOn` never returns the empty list. -/
theorem splitListOn_ne_nil (c : Char) (cs : List Char) : splitListOn c cs ≠ [] := by
  cases cs with
  | nil => simp [splitListOn]
  | cons x xs =>
    simp only [splitListOn]
    cases h : splitListOn c xs with
    | nil => simp
    | cons hd tl => by_cases hx : x = c <;> simp [hx]

/-- A newline is a no-op for the spec's brace counter. -/
theorem braceStep_nl (st : Int × Int) : braceStep st '\n' = st := rfl

/-- The char-level brace fold over a body equals the fold over its
newline-split lines (newlines change nothing). -/
theorem foldl_braceStep_split (cs : List Char) (st : Int × Int) :
    cs.foldl braceStep st =
      (splitListOn '\n' cs).foldl (fun st l => l.foldl braceStep st) st := by
  induction cs generalizing st with
  | nil => rfl
  | cons c cs ih =>
    by_cases hc : c = '\n'
    · subst hc
      have hsp : splitListOn '\n' ('\n' :: cs) = [] :: splitListOn '\n' cs := by
        cases h : splitListOn '\n' cs with
        | nil => exact absurd h (splitListOn_ne_nil '\n' cs)
        | cons hd tl => simp [splitListOn, h]
      rw [hsp]
      simp only [List.foldl_cons, List.foldl_nil, braceStep_nl]
      exact ih st
    · cases h : splitListOn '\n' cs with
      | nil => exact absurd h (splitListOn_ne_nil '\n' cs)
      | cons hd tl =>
        have hsp : splitListOn '\n' (c :: cs) = (c :: hd) :: tl := by
          simp [splitListOn, h, hc]
        rw [hsp]
        simp only [List.foldl_cons]
        rw [ih (braceStep st c), h]
        simp only [List.foldl_cons]

/-- A line without opening braces satisfies `opensBeforeCloses`. -/
theorem opensBeforeCloses_of_no_open (cs : List Char)
    (h : cs.all (· ≠ '{') = true) : opensBeforeCloses cs = true := by
  induction cs with
  | nil => rfl
  | cons c cs ih =>
    simp only [List.all_cons, Bool.and_eq_true] at h
    simp only [opensBeforeCloses]
    by_cases hc : c = '}'
    · simp only [if_pos hc]
      exact List.all_eq_true.mpr (fun x hx => List.all_eq_true.mp h.2 x hx)
    · simp only [if_neg hc]
      exact ih h.2

/-- On a line whose opening braces all precede its closing braces, the
char-level brace fold from a state with `cur ≤ mx` lands exactly where the
source's line-level computation (add opens, take max, subtract closes) does. -/
theorem foldl_braceStep_line (cs : List Char) (cur mx : Int)
    (hobc : opensBeforeCloses cs = true) (hinv : cur ≤ mx) :
    cs.foldl braceStep (cur, mx) =
      (cur + (cs.count '{' : Int) - (cs.count '}' : Int),
       max mx (cur + (cs.count '{' : Int))) := by
  induction cs generalizing cur mx with
  | nil =>
    simp [max_eq_left hinv]
  | cons c cs ih =>
    by_cases hc : c = '{'
    · subst hc
      have hobc' : opensBeforeCloses cs = true := by
        simpa [opensBeforeCloses] using hobc
      have hstep : braceStep (cur, mx) '{' = (cur + 1, max mx (cur + 1)) := by
        simp [braceStep]
      have hcnt : (0 : ℤ) ≤ (cs.count '{' : Int) := Int.ofNat_nonneg _
      simp only [List.foldl_cons, hstep]
      rw [ih (cur + 1) (max mx (cur + 1)) hobc' (le_max_right mx (cur + 1))]
      simp only [List.count_cons_self,
        List.count_cons_of_ne (by simp : ('}' : Char) ≠ '{'), Prod.mk.injEq]
      refine ⟨by push_cast; ring, ?_⟩
      rw [max_assoc,
        max_eq_right (by linarith : cur + 1 ≤ cur + 1 + (cs.count '{' : Int))]
      congr 1
      push_cast
      ring
    · by_cases hc2 : c = '}'
      · subst hc2
        have hall : cs.all (· ≠ '{') = true := by
          simpa [opensBeforeCloses] using hobc
        have hnocount : cs.count '{' = 0 :=
          List.count_eq_zero.mpr (by
            intro hmem
            have := List.all_eq_true.mp hall '{' hmem
            simp at this)
        have hobc' : opensBeforeCloses cs = true := opensBeforeCloses_of_no_open cs hall
        have hstep : braceStep (cur, mx) '}' = (cur - 1, max mx (cur - 1)) := by
          simp [braceStep]
        have hmx : max mx (cur - 1) = mx := max_eq_left (by linarith)
        simp only [List.foldl_cons, hstep, hmx]
        rw [ih (cur - 1) mx hobc' (by linarith)]
        simp only [hnocount, List.count_cons_self,
          List.count_cons_of_ne (by simp : ('{' : Char) ≠ '}'), Prod.mk.injEq]
        refine ⟨by push_cast; ring, ?_⟩
        rw [max_eq_left (by push_cast; linarith : cur - 1 + ((0 : Nat) : Int) ≤ mx),
          max_eq_left (by push_cast; linarith : cur + ((0 : Nat) : Int) ≤ mx)]
      · have hobc' : opensBeforeCloses cs = true := by
          simpa [opensBeforeCloses, hc2] using hobc
        have hstep : braceStep (cur, mx) c = (cur, mx) := by
          simp [braceStep, hc, hc2]
        simp only [List.foldl_cons, hstep]
        rw [ih cur mx hobc' hinv]
        simp [List.count_cons_of_ne (Ne.symm hc), List.count_cons_of_ne (Ne.symm hc2)]

/-- Over lines whose opening braces precede their closing braces, the
source's line-level fold agrees with the char-level spec fold, from any
state with `cur ≤ mx`. -/
theorem foldl_lines_eq_braceStep (lines : List String) (cur mx : Int)
    (hobc : ∀ l ∈ lines, opensBeforeCloses l.toList = true) (hinv : cur ≤ mx) :
    lines.foldl (fun st line =>
      (st.1 + (countCharIn line '{' : Int) - (countCharIn line '}' : Int),
       max st.2 (st.1 + (countCharIn line '{' : Int)))) (cur, mx) =
      lines.foldl (fun st l => l.toList.foldl braceStep st) (cur, mx) := by
  induction lines generalizing cur mx with
  | nil => rfl
  | cons l ls ih =>
    simp only [List.foldl_cons]
    rw [foldl_braceStep_line l.toList cur mx (hobc l (by simp)) hinv]
    have hcnt : (0 : ℤ) ≤ (l.toList.count '}' : Int) := Int.ofNat_nonneg _
    have hinv' : cur + (l.toList.count '{' : Int) - (l.toList.count '}' : Int) ≤
        max mx (cur + (l.toList.count '{' : Int)) :=
      le_trans (by linarith) (le_max_right _ _)
    rw [countCharIn, countCharIn]
    exact ih _ _ (fun x hx => hobc x (by simp [hx])) hinv'

/-- C3 (amended): for a body with balanced braces in which, on every line,
every opening brace occurs before every closing brace, the nesting-depth
score equals the maximum value n reached by the running open-minus-close
brace counter over the body. -/
theorem calculateMaxNestingDepth_eq_spec (body : String) (n : Int)
    (hbal : bracesBalanced body = true)
    (hline : ∀ line ∈ jsSplitNL body, opensBeforeCloses line.toList = true)
    (hn : specNestingDepth body = n) :
    calculateMaxNestingDepth body = n := by
  subst hn
  rw [calculateMaxNestingDepth, specNestingDepth]
  rw [foldl_braceStep_split body.toList (0, 0)]
  have hmap : (splitListOn '\n' body.toList).foldl
      (fun st l => l.foldl braceStep st) (0, 0) =
      (jsSplitNL body).foldl (fun st s => s.toList.foldl braceStep st) (0, 0) := by
    rw [jsSplitNL, List.foldl_map]
    rfl
  rw [hmap, ← foldl_lines_eq_braceStep (jsSplitNL body) 0 0 hline le_rfl]

/-- Counterexample to C3 as stated: the one-line balanced body `"{}{}"` has
maximum running-counter depth 1, but the nesting-depth score is 2 (the
source adds all of a line's opening braces before subtracting any closing
brace). -/
theorem calculateMaxNestingDepth_counterexample :
    bracesBalanced "{}{}" = true ∧ specNestingDepth "{}{}" = 1 ∧
      calculateMaxNestingDepth "{}{}" ≠ 1 := by
  refine ⟨by decide, by decide, ?_⟩
  decide

/-- Witness for the amended C3 at a four-line body of depth 2. -/
theorem calculateMaxNestingDepth_eq_spec_witness :
    (bracesBalanced "a() \x7b\nif (x) \x7b\n\x7d\n\x7d" = true ∧
     (∀ line ∈ jsSplitNL "a() \x7b\nif (x) \x7b\n\x7d\n\x7d", opensBeforeCloses line.toList = true) ∧
     specNestingDepth "a() \x7b\nif (x) \x7b\n\x7d\n\x7d" = 2) ∧
    calculateMaxNestingDepth "a() \x7b\nif (x) \x7b\n\x7d\n\x7d" = 2 :=
  ⟨⟨by decide, by decide, by decide⟩,
   calculateMaxNestingDepth_eq_spec "a() \x7b\nif (x) \x7b\n\x7d\n\x7d" 2 (by decide) (by decide)
     (by decide)⟩

/-- With the source's stub helpers, the naming step only bumps the file
category, the check total and the valid-name total. -/
theorem namingStepFile_char (language : Option String)
    (st : List ConventionViolation × ConventionCategories × Nat × Nat) (file : DiffFile) :
    namingStepFile language st file =
      (st.1, { st.2.1 with files := st.2.1.files + 1 }, st.2.2.1 + 1, st.2.2.2 + 1) := by
  obtain ⟨v, c, t, n⟩ := st
  rfl

/-- Closed form of the `validateNamingConventions` fold. -/
theorem naming_fold (language : Option String) (files : List DiffFile)
    (v : List ConventionViolation) (c : ConventionCategories) (t n : Nat) :
    files.foldl (namingStepFile language) (v, c, t, n) =
      (v, { c with files := c.files + files.length },
       t + files.length, n + files.length) := by
  induction files generalizing c t n with
  | nil => simp
  | cons f fs ih =>
    simp only [List.foldl_cons, namingStepFile_char]
    rw [ih]
    have hswap : ∀ m : Nat, m + 1 + fs.length = m + (fs.length + 1) := by omega
    simp only [List.length_cons, hswap]

/-- `validateNamingConventions` in closed form: with the stub validators the
overall score is always 100, only the file category counts, and no
violations are produced. -/
theorem validateNamingConventions_closed (files : List DiffFile) (language : Option String) :
    validateNamingConventions files language = ⟨100, ⟨0, 0, 0, files.length⟩, []⟩ := by
  rw [validateNamingConventions, naming_fold]
  by_cases h : 0 < files.length
  · have hne : ((files.length : ℚ)) ≠ 0 := Nat.cast_ne_zero.mpr (by omega)
    simp [h, div_self hne]
  · simp [h]

/-- Per-file characterization of the SOLID fold step. -/
theorem solidStepFile_char (st : SolidPrinciples × List SolidViolation) (f : DiffFile) :
    solidStepFile st f =
      (⟨st.1.singleResponsibility -
          (if 20 < analyzeClassComplexity f.additions then 10 else 0),
        st.1.openClosed - (if 0 < detectModificationPatterns f.additions then 5 else 0),
        st.1.liskovSubstitution, st.1.interfaceSegregation,
        st.1.dependencyInversion -
          (if 0 < detectHardDependencies f.additions then 15 else 0)⟩,
       st.2 ++ solidViolationsOfFile f) := by
  obtain ⟨p, v⟩ := st
  rw [solidStepFile, solidViolationsOfFile]
  by_cases h1 : 20 < analyzeClassComplexity f.additions <;>
    by_cases h2 : 0 < detectModificationPatterns f.additions <;>
      by_cases h3 : 0 < detectHardDependencies f.additions <;>
        simp [h1, h2, h3]

/-- Closed form of the `checkSolidPrinciples` fold: each principle is its
start value minus a fixed penalty per matching file, and the violation list
is the per-file violations in file order. -/
theorem checkSolid_fold (files : List DiffFile) (p : SolidPrinciples)
    (v : List SolidViolation) :
    files.foldl solidStepFile (p, v) =
      (⟨p.singleResponsibility -
          10 * ((files.countP (fun f => decide (20 < analyzeClassComplexity f.additions))) : ℚ),
        p.openClosed -
          5 * ((files.countP (fun f => decide (0 < detectModificationPatterns f.additions))) : ℚ),
        p.liskovSubstitution, p.interfaceSegregation,
        p.dependencyInversion -
          15 * ((files.countP (fun f => decide (0 < detectHardDependencies f.additions))) : ℚ)⟩,
       v ++ files.flatMap solidViolationsOfFile) := by
  induction files generalizing p v with
  | nil => simp
  | cons f fs ih =>
    simp only [List.foldl_cons, solidStepFile_char]
    rw [ih]
    simp only [List.countP_cons, List.flatMap_cons, Prod.mk.injEq,
      SolidPrinciples.mk.injEq, List.append_assoc]
    refine ⟨⟨?_, ?_, trivial, trivial, ?_⟩, trivial⟩ <;>
      · simp only [decide_eq_true_eq]
        push_cast
        split_ifs with hc <;> ring

/-- `checkSolidPrinciples` in closed form. -/
theorem checkSolidPrinciples_closed (files : List DiffFile) :
    checkSolidPrinciples files =
      { overall := max 0
          (((100 - 10 * ((files.countP
              (fun f => decide (20 < analyzeClassComplexity f.additions))) : ℚ)) +
            (100 - 5 * ((files.countP
              (fun f => decide (0 < detectModificationPatterns f.additions))) : ℚ)) +
            100 + 100 +
            (100 - 15 * ((files.countP
              (fun f => decide (0 < detectHardDependencies f.additions))) : ℚ))) / 5),
        principles :=
          ⟨100 - 10 * ((files.countP
              (fun f => decide (20 < analyzeClassComplexity f.additions))) : ℚ),
           100 - 5 * ((files.countP
              (fun f => decide (0 < detectModificationPatterns f.additions))) : ℚ),
           100, 100,
           100 - 15 * ((files.countP
              (fun f => decide (0 < detectHardDependencies f.additions))) : ℚ)⟩,
        violations := files.flatMap solidViolationsOfFile } := by
  rw [checkSolidPrinciples, checkSolid_fold]
  simp

/-- C9 (amended): the DesignHeuristics scanners are additive across files:
under any permutation of the files, the naming-convention result is
unchanged, the SOLID principle scores and overall score are unchanged with
the violation list permuted accordingly, and the code-smell and anti-pattern
lists are permuted accordingly. -/
theorem designHeuristics_order_invariance (files₁ files₂ : List DiffFile)
    (language : Option String) (h : files₁.Perm files₂) :
    validateNamingConventions files₁ language = validateNamingConventions files₂ language ∧
    (checkSolidPrinciples files₁).principles = (checkSolidPrinciples files₂).principles ∧
    (checkSolidPrinciples files₁).overall = (checkSolidPrinciples files₂).overall ∧
    (checkSolidPrinciples files₁).violations.Perm (checkSolidPrinciples files₂).violations ∧
    (detectCodeSmells files₁ language).Perm (detectCodeSmells files₂ language) ∧
    (detectAntiPatterns files₁ language).Perm (detectAntiPatterns files₂ language) := by
  have hc1 := h.countP_eq (fun f => decide (20 < analyzeClassComplexity f.additions))
  have hc2 := h.countP_eq (fun f => decide (0 < detectModificationPatterns f.additions))
  have hc3 := h.countP_eq (fun f => decide (0 < detectHardDependencies f.additions))
  refine ⟨?_, ?_, ?_, ?_, ?_, ?_⟩
  · rw [validateNamingConventions_closed, validateNamingConventions_closed, h.length_eq]
  · rw [checkSolidPrinciples_closed, checkSolidPrinciples_closed]
    simp [hc1, hc2, hc3]
  · rw [checkSolidPrinciples_closed, checkSolidPrinciples_closed]
    simp [hc1, hc2, hc3]
  · rw [checkSolidPrinciples_closed, checkSolidPrinciples_closed]
    exact h.flatMap_right solidViolationsOfFile
  · exact h.flatMap_right codeSmellsOfFile
  · exact h.flatMap_right antiPatternsOfFile

/-- Counterexample to C9 as stated: swapping two files, each triggering a
Dependency-Inversion violation, permutes (and so changes) the SOLID
violation list, so the aggregated result is not literally the same. -/
theorem designHeuristics_order_counterexample :
    (([⟨"a.ts", "", ["new Foo()"]⟩, ⟨"b.ts", "", ["new Bar()"]⟩] : List DiffFile).Perm
       [⟨"b.ts", "", ["new Bar()"]⟩, ⟨"a.ts", "", ["new Foo()"]⟩]) ∧
    (checkSolidPrinciples [⟨"a.ts", "", ["new Foo()"]⟩, ⟨"b.ts", "", ["new Bar()"]⟩]).violations ≠
      (checkSolidPrinciples [⟨"b.ts", "", ["new Bar()"]⟩, ⟨"a.ts", "", ["new Foo()"]⟩]).violations := by
  constructor
  · exact List.Perm.swap _ _ []
  · decide

/-- Witness for the amended C9 at the two swapped files. -/
theorem designHeuristics_order_invariance_witness :
    (([⟨"a.ts", "", ["new Foo()"]⟩, ⟨"b.ts", "", ["new Bar()"]⟩] : List DiffFile).Perm
       [⟨"b.ts", "", ["new Bar()"]⟩, ⟨"a.ts", "", ["new Foo()"]⟩]) ∧
    (validateNamingConventions [⟨"a.ts", "", ["new Foo()"]⟩, ⟨"b.ts", "", ["new Bar()"]⟩] none =
       validateNamingConventions [⟨"b.ts", "", ["new Bar()"]⟩, ⟨"a.ts", "", ["new Foo()"]⟩] none ∧
     (checkSolidPrinciples [⟨"a.ts", "", ["new Foo()"]⟩, ⟨"b.ts", "", ["new Bar()"]⟩]).principles =
       (checkSolidPrinciples [⟨"b.ts", "", ["new Bar()"]⟩, ⟨"a.ts", "", ["new Foo()"]⟩]).principles ∧
     (checkSolidPrinciples [⟨"a.ts", "", ["new Foo()"]⟩, ⟨"b.ts", "", ["new Bar()"]⟩]).overall =
       (checkSolidPrinciples [⟨"b.ts", "", ["new Bar()"]⟩, ⟨"a.ts", "", ["new Foo()"]⟩]).overall ∧
     ((checkSolidPrinciples [⟨"a.ts", "", ["new Foo()"]⟩, ⟨"b.ts", "", ["new Bar()"]⟩]).violations.Perm
       (checkSolidPrinciples [⟨"b.ts", "", ["new Bar()"]⟩, ⟨"a.ts", "", ["new Foo()"]⟩]).violations) ∧
     ((detectCodeSmells [⟨"a.ts", "", ["new Foo()"]⟩, ⟨"b.ts", "", ["new Bar()"]⟩] none).Perm
       (detectCodeSmells [⟨"b.ts", "", ["new Bar()"]⟩, ⟨"a.ts", "", ["new Foo()"]⟩] none)) ∧
     ((detectAntiPatterns [⟨"a.ts", "", ["new Foo()"]⟩, ⟨"b.ts", "", ["new Bar()"]⟩] none).Perm
       (detectAntiPatterns [⟨"b.ts", "", ["new Bar()"]⟩, ⟨"a.ts", "", ["new Foo()"]⟩] none))) :=
  ⟨List.Perm.swap _ _ [],
   designHeuristics_order_invariance _ _ none (List.Perm.swap _ _ [])⟩

/-- Effect of one `insertGroup` on a key's occurrence list. -/
theorem lookupOccs_insertGroup (key k : String) (occ : DupOcc)
    (g : List (String × List DupOcc)) :
    lookupOccs key (insertGroup g k occ) =
      if k = key then lookupOccs key g ++ [occ] else lookupOccs key g := by
  induction g with
  | nil =>
    by_cases h : k = key <;> simp [insertGroup, lookupOccs, List.find?, h]
  | cons e g ih =>
    by_cases he : e.1 = k
    · have hstep : insertGroup (e :: g) k occ = (e.1, e.2 ++ [occ]) :: g := by
        simp [insertGroup, he]
      rw [hstep]
      by_cases hk : k = key
      · subst hk
        simp [lookupOccs, List.find?, he]
      · have : ¬ e.1 = key := by rw [he]; exact hk
        simp [lookupOccs, List.find?, this, if_neg hk]
    · have hstep : insertGroup (e :: g) k occ = e :: insertGroup g k occ := by
        simp [insertGroup, he]
      rw [hstep]
      by_cases hek : e.1 = key
      · have hk : ¬ k = key := fun hkk => he (hek.trans hkk.symm)
        simp [lookupOccs, List.find?, hek, hk]
      · have hcons : ∀ gg : List (String × List DupOcc),
            lookupOccs key (e :: gg) = lookupOccs key gg := by
          intro gg
          simp [lookupOccs, List.find?, hek]
        rw [hcons, hcons, ih]

/-- Effect of one file's window-insertion loop on a key's occurrence list,
generalized over the visited offsets. -/
theorem lookupOccs_fold_idxs (key : String) (lines : List String) (path : String)
    (idxs : List Nat) (g : List (String × List DupOcc)) :
    lookupOccs key (idxs.foldl (fun groups i =>
        insertGroup groups (windowKeyAt lines i) ⟨path, i + 1⟩) g) =
      lookupOccs key g ++
        (idxs.filter (fun i => windowKeyAt lines i == key)).map
          (fun i => (⟨path, i + 1⟩ : DupOcc)) := by
  induction idxs generalizing g with
  | nil => simp
  | cons i idxs ih =>
    simp only [List.foldl_cons]
    rw [ih, lookupOccs_insertGroup]
    by_cases h : windowKeyAt lines i = key
    · simp [h, List.filter_cons]
    · simp [h, List.filter_cons]

/-- Effect of the whole duplication fold on a key's occurrence list. -/
theorem lookupOccs_fold_files (key : String) (files : List DiffFile)
    (g : List (String × List DupOcc)) :
    lookupOccs key (files.foldl (fun groups file =>
        (List.range ((nonBlankAdditions file).length + 1 - 5)).foldl
          (fun groups i =>
            insertGroup groups (windowKeyAt (nonBlankAdditions file) i) ⟨file.path, i + 1⟩)
          groups) g) =
      lookupOccs key g ++ files.flatMap (keyOccsOfFile key) := by
  induction files generalizing g with
  | nil => simp
  | cons f fs ih =>
    simp only [List.foldl_cons]
    rw [ih, lookupOccs_fold_idxs]
    simp only [keyOccsOfFile, List.flatMap_cons, List.append_assoc]

/-- A nonempty occurrence list for a key is an entry of the map. -/
theorem mem_of_lookupOccs_ne_nil (key : String) (g : List (String × List DupOcc))
    (h : lookupOccs key g ≠ []) : (key, lookupOccs key g) ∈ g := by
  unfold lookupOccs at h ⊢
  cases hf : g.find? (fun e => e.1 = key) with
  | none => simp [hf] at h
  | some e =>
    simp only [hf]
    have hmem := List.mem_of_find?_eq_some hf
    have hkey : e.1 = key := by
      have := List.find?_some hf
      simpa using this
    have he : (key, e.2) = e := by
      cases e
      simp_all
    rw [he]
    exact hmem

/-- A file holding a window key exactly once contributes exactly one
occurrence, carrying its own path. -/
theorem keyOccsOfFile_of_count_one (key : String) (f : DiffFile)
    (h : (windowKeys f).count key = 1) :
    (keyOccsOfFile key f).length = 1 ∧ (keyOccsOfFile key f).map (·.file) = [f.path] := by
  have hcount : ((List.range ((nonBlankAdditions f).length + 1 - 5)).filter
      (fun i => windowKeyAt (nonBlankAdditions f) i == key)).length = 1 := by
    rw [← List.countP_eq_length_filter]
    rw [windowKeys, List.count, List.countP_map] at h
    simpa using h
  obtain ⟨i, hi⟩ := List.length_eq_one.mp hcount
  constructor
  · rw [keyOccsOfFile, List.length_map, hcount]
  · rw [keyOccsOfFile, hi]
    simp

/-- A file not holding a window key contributes no occurrence. -/
theorem keyOccsOfFile_of_not_mem (key : String) (f : DiffFile)
    (h : key ∉ windowKeys f) : keyOccsOfFile key f = [] := by
  rw [keyOccsOfFile]
  have hfil : (List.range ((nonBlankAdditions f).length + 1 - 5)).filter
      (fun i => windowKeyAt (nonBlankAdditions f) i == key) = [] := by
    rw [List.filter_eq_nil_iff]
    intro i hi hkey
    exact h (by
      rw [windowKeys]
      exact List.mem_map.mpr ⟨i, hi, by simpa using hkey⟩)
  rw [hfil]
  rfl

/-- C4: when exactly two files with distinct paths each contain a shared
5-line window key exactly once and no other file contains it, the
duplication result holds a block with occurrences 2 whose file list is
exactly the two paths, each once. -/
theorem detectCodeDuplication_two_files (A B C : List DiffFile) (f1 f2 : DiffFile)
    (key : String) (hne : f1.path ≠ f2.path)
    (h1 : (windowKeys f1).count key = 1)
    (h2 : (windowKeys f2).count key = 1)
    (hA : ∀ f ∈ A, key ∉ windowKeys f)
    (hB : ∀ f ∈ B, key ∉ windowKeys f)
    (hC : ∀ f ∈ C, key ∉ windowKeys f) :
    ∃ b ∈ (detectCodeDuplication (A ++ f1 :: B ++ f2 :: C)).duplicatedBlocks,
      b.occurrences = 2 ∧ b.files = [f1.path, f2.path] := by
  obtain ⟨hl1, hf1⟩ := keyOccsOfFile_of_count_one key f1 h1
  obtain ⟨hl2, hf2⟩ := keyOccsOfFile_of_count_one key f2 h2
  obtain ⟨o1, ho1⟩ := List.length_eq_one.mp hl1
  obtain ⟨o2, ho2⟩ := List.length_eq_one.mp hl2
  have hmap1 : o1.file = f1.path := by
    rw [ho1] at hf1
    simpa using hf1
  have hmap2 : o2.file = f2.path := by
    rw [ho2] at hf2
    simpa using hf2
  have hAnil : A.flatMap (keyOccsOfFile key) = [] := by
    rw [List.flatMap_eq_nil_iff]
    intro f hf
    exact keyOccsOfFile_of_not_mem key f (hA f hf)
  have hBnil : B.flatMap (keyOccsOfFile key) = [] := by
    rw [List.flatMap_eq_nil_iff]
    intro f hf
    exact keyOccsOfFile_of_not_mem key f (hB f hf)
  have hCnil : C.flatMap (keyOccsOfFile key) = [] := by
    rw [List.flatMap_eq_nil_iff]
    intro f hf
    exact keyOccsOfFile_of_not_mem key f (hC f hf)
  have hflat : (A ++ f1 :: B ++ f2 :: C).flatMap (keyOccsOfFile key) = [o1, o2] := by
    rw [List.flatMap_append, List.flatMap_append, hAnil, List.flatMap_cons, ho1, hBnil,
      List.flatMap_cons, ho2, hCnil]
    rfl
  have hocc : lookupOccs key ((A ++ f1 :: B ++ f2 :: C).foldl (fun groups file =>
      (List.range ((nonBlankAdditions file).length + 1 - 5)).foldl
        (fun groups i =>
          insertGroup groups (windowKeyAt (nonBlankAdditions file) i) ⟨file.path, i + 1⟩)
        groups) ([] : List (String × List DupOcc))) = [o1, o2] := by
    rw [lookupOccs_fold_files, hflat]
    rfl
  have hmem : (key, [o1, o2]) ∈ (A ++ f1 :: B ++ f2 :: C).foldl (fun groups file =>
      (List.range ((nonBlankAdditions file).length + 1 - 5)).foldl
        (fun groups i =>
          insertGroup groups (windowKeyAt (nonBlankAdditions file) i) ⟨file.path, i + 1⟩)
        groups) ([] : List (String × List DupOcc)) := by
    have hmem' := mem_of_lookupOccs_ne_nil key _ (by rw [hocc]; simp)
    rwa [hocc] at hmem'
  have hblocks : (detectCodeDuplication (A ++ f1 :: B ++ f2 :: C)).duplicatedBlocks =
      (((A ++ f1 :: B ++ f2 :: C).foldl (fun groups file =>
          (List.range ((nonBlankAdditions file).length + 1 - 5)).foldl
            (fun groups i =>
              insertGroup groups (windowKeyAt (nonBlankAdditions file) i) ⟨file.path, i + 1⟩)
            groups) ([] : List (String × List DupOcc))).filter
          (fun g => 1 < g.2.length)).map
        (fun g => (⟨5, g.2.length, dedupFirst (g.2.map (·.file))⟩ : DupBlock)) := rfl
  refine ⟨⟨5, 2, dedupFirst [o1.file, o2.file]⟩, ?_, rfl, ?_⟩
  · rw [hblocks]
    exact List.mem_map.mpr ⟨(key, [o1, o2]),
      List.mem_filter.mpr ⟨hmem, by simp⟩, rfl⟩
  · rw [hmap1, hmap2]
    have h21 : f2.path ≠ f1.path := Ne.symm hne
    simp [dedupFirst, h21]

/-- Witness for C4: two one-block files sharing one 5-line window. -/
theorem detectCodeDuplication_two_files_witness :
    ((⟨"a.ts", "", ["l1", "l2", "l3", "l4", "l5"]⟩ : DiffFile).path ≠
        (⟨"b.ts", "", ["l1", "l2", "l3", "l4", "l5"]⟩ : DiffFile).path ∧
     (windowKeys ⟨"a.ts", "", ["l1", "l2", "l3", "l4", "l5"]⟩).count
        "l1\nl2\nl3\nl4\nl5" = 1 ∧
     (windowKeys ⟨"b.ts", "", ["l1", "l2", "l3", "l4", "l5"]⟩).count
        "l1\nl2\nl3\nl4\nl5" = 1) ∧
    ∃ b ∈ (detectCodeDuplication [⟨"a.ts", "", ["l1", "l2", "l3", "l4", "l5"]⟩,
        ⟨"b.ts", "", ["l1", "l2", "l3", "l4", "l5"]⟩]).duplicatedBlocks,
      b.occurrences = 2 ∧ b.files = ["a.ts", "b.ts"] :=
  ⟨⟨by decide, by decide, by decide⟩,
   detectCodeDuplication_two_files [] [] [] ⟨"a.ts", "", ["l1", "l2", "l3", "l4", "l5"]⟩
     ⟨"b.ts", "", ["l1", "l2", "l3", "l4", "l5"]⟩ "l1\nl2\nl3\nl4\nl5" (by decide)
     (by decide) (by decide) (by simp) (by simp) (by simp)⟩

/-- Running `/\bif\b/` at a position either recognizes a word-delimited `if`
at the head, consuming exactly two characters, or fails. -/
theorem runRE_kw_if (s : List Char) (pv : Option Char) :
    runRE (reKw "if") s pv none =
      if ifTokenHead pv s then [(s.drop 2, some 'f', none)] else [] := by
  have hre : reKw "if" =
      RE.seq RE.bnd (RE.seq (RE.lit ['i', 'f']) (RE.seq RE.bnd RE.eps)) := rfl
  rw [hre]
  match s with
  | [] => simp [runRE, boundaryOk, dropLit, ifTokenHead]
  | [c] =>
    have hd : dropLit ['i', 'f'] [c] pv = none := by
      simp [dropLit]
    simp [runRE, hd, ifTokenHead]
  | c1 :: c2 :: t =>
    by_cases h1 : c1 = 'i'
    · by_cases h2 : c2 = 'f'
      · subst h1; subst h2
        have hd : dropLit ['i', 'f'] ('i' :: 'f' :: t) pv = some (t, some 'f') := by
          simp [dropLit]
        have hwi : isWordChar 'i' = true := by decide
        have hwf : isWordChar 'f' = true := by decide
        rcases pv with _ | p <;> rcases t with _ | ⟨c, t2⟩
        · simp [runRE, hd, ifTokenHead, boundaryOk, hwi, hwf]
        · by_cases hw : isWordChar c <;>
            simp [runRE, hd, ifTokenHead, boundaryOk, hwi, hwf, hw]
        · by_cases hp : isWordChar p <;>
            simp [runRE, hd, ifTokenHead, boundaryOk, hwi, hwf, hp]
        · by_cases hp : isWordChar p <;> by_cases hw : isWordChar c <;>
            simp [runRE, hd, ifTokenHead, boundaryOk, hwi, hwf, hp, hw]
      · have hd : dropLit ['i', 'f'] (c1 :: c2 :: t) pv = none := by
          have hne : ¬ (('f' : Char) == c2) = true := by
            simpa using fun h => h2 h.symm
          simp [dropLit, hne]
        have hh : ifTokenHead pv (c1 :: c2 :: t) = false := by
          simp [ifTokenHead, h2]
        simp [runRE, hd, hh]
    · have hd : dropLit ['i', 'f'] (c1 :: c2 :: t) pv = none := by
        have hne : ¬ (('i' : Char) == c1) = true := by
          simpa using fun h => h1 h.symm
        simp [dropLit, hne]
      have hh : ifTokenHead pv (c1 :: c2 :: t) = false := by
        simp [ifTokenHead, h1]
      simp [runRE, hd, hh]

/-- Position predicate and head recognition agree. -/
theorem isIfTokenAt_eq_head (cs : List Char) (p : Nat) :
    isIfTokenAt cs p = ifTokenHead (prevCharAt cs p) (cs.drop p) := by
  have hget : ∀ m : Nat, cs[p + m]? = (cs.drop p)[m]? := fun m => by
    have := List.get?_drop cs p m
    simpa [List.get?_eq_getElem?] using this.symm
  cases hd : cs.drop p with
  | nil =>
    have h0 : cs[p]? = none := by
      have := hget 0
      rw [hd] at this
      simpa using this
    simp [isIfTokenAt, ifTokenHead, h0]
  | cons c1 rest =>
    have h0 : cs[p]? = some c1 := by
      have := hget 0
      rw [hd] at this
      simpa using this
    cases rest with
    | nil =>
      have h1 : cs[p + 1]? = none := by
        have := hget 1
        rw [hd] at this
        simpa using this
      simp [isIfTokenAt, ifTokenHead, h0, h1]
    | cons c2 t =>
      have h1 : cs[p + 1]? = some c2 := by
        have := hget 1
        rw [hd] at this
        simpa using this
      have h2 : cs[p + 2]? = t[0]? := by
        have := hget 2
        rw [hd] at this
        simpa using this
      cases t with
      | nil => simp [isIfTokenAt, ifTokenHead, h0, h1, h2]
      | cons c3 t3 => simp [isIfTokenAt, ifTokenHead, h0, h1, h2]

/-- A token at `pos` pins the next two characters, so no token starts at
`pos + 1`. -/
theorem isIfTokenAt_succ_false (cs : List Char) (pos : Nat)
    (h : isIfTokenAt cs pos = true) : isIfTokenAt cs (pos + 1) = false := by
  simp only [isIfTokenAt, Bool.and_eq_true, beq_iff_eq] at h
  obtain ⟨⟨⟨hi, hf⟩, _⟩, _⟩ := h
  cases hcon : isIfTokenAt cs (pos + 1) with
  | false => rfl
  | true =>
    exfalso
    simp only [isIfTokenAt, Bool.and_eq_true, beq_iff_eq] at hcon
    rw [hf] at hcon
    exact absurd hcon.1.1.1 (by simp)

/-- A token at `pos` needs two characters, so `pos + 1 < cs.length`. -/
theorem isIfTokenAt_lt (cs : List Char) (pos : Nat)
    (h : isIfTokenAt cs pos = true) : pos + 1 < cs.length := by
  simp only [isIfTokenAt, Bool.and_eq_true, beq_iff_eq] at h
  obtain ⟨⟨⟨_, hf⟩, _⟩, _⟩ := h
  obtain ⟨hlt, _⟩ := List.get?_eq_some.mp hf
  exact hlt

/-- The global count of `/\bif\b/` from a position equals the number of token
positions at or beyond it. -/
theorem reCountAux_kw_if (cs : List Char) (fuel : Nat) : ∀ pos : Nat,
    cs.length + 1 ≤ fuel + pos →
    reCountAux (reKw "if") cs pos fuel =
      ((Finset.range cs.length).filter
        (fun p => pos ≤ p ∧ isIfTokenAt cs p = true)).card := by
  induction fuel with
  | zero =>
    intro pos hfuel
    rw [reCountAux]
    symm
    rw [Finset.card_eq_zero, Finset.filter_eq_empty_iff]
    intro q hq
    simp only [Finset.mem_range] at hq
    intro hcon
    omega
  | succ fuel ih =>
    intro pos hfuel
    rw [reCountAux]
    by_cases hpos : cs.length < pos
    · rw [if_pos hpos]
      symm
      rw [Finset.card_eq_zero, Finset.filter_eq_empty_iff]
      intro q hq
      simp only [Finset.mem_range] at hq
      intro hcon
      omega
    · rw [if_neg hpos, runRE_kw_if, ← isIfTokenAt_eq_head]
      by_cases htok : isIfTokenAt cs pos = true
      · rw [if_pos htok]
        have hlt := isIfTokenAt_lt cs pos htok
        have hjump : pos + max ((cs.length - pos) - ((cs.drop pos).drop 2).length) 1 =
            pos + 2 := by
          rw [List.length_drop, List.length_drop]
          omega
        show 1 + reCountAux (reKw "if") cs
            (pos + max ((cs.length - pos) - ((cs.drop pos).drop 2).length) 1) fuel = _
        rw [hjump, ih (pos + 2) (by omega)]
        have hnot := isIfTokenAt_succ_false cs pos htok
        have hset : (Finset.range cs.length).filter
              (fun p => pos ≤ p ∧ isIfTokenAt cs p = true) =
            insert pos ((Finset.range cs.length).filter
              (fun p => pos + 2 ≤ p ∧ isIfTokenAt cs p = true)) := by
          ext q
          simp only [Finset.mem_filter, Finset.mem_insert, Finset.mem_range]
          constructor
          · rintro ⟨hqr, hge, hq⟩
            by_cases hq0 : q = pos
            · exact Or.inl hq0
            · by_cases hq1 : q = pos + 1
              · subst hq1
                rw [hnot] at hq
                exact absurd hq (by simp)
              · exact Or.inr ⟨hqr, by omega, hq⟩
          · rintro (rfl | ⟨hqr, hge, hq⟩)
            · exact ⟨by omega, le_rfl, htok⟩
            · exact ⟨hqr, by omega, hq⟩
        rw [hset, Finset.card_insert_of_not_mem (by
          simp only [Finset.mem_filter, Finset.mem_range]
          rintro ⟨_, hge, _⟩
          omega)]
        omega
      · rw [if_neg htok]
        rw [ih (pos + 1) (by omega)]
        have hset : (Finset.range cs.length).filter
              (fun p => pos + 1 ≤ p ∧ isIfTokenAt cs p = true) =
            (Finset.range cs.length).filter
              (fun p => pos ≤ p ∧ isIfTokenAt cs p = true) := by
          ext q
          simp only [Finset.mem_filter, Finset.mem_range]
          constructor
          · rintro ⟨hqr, hge, hq⟩
            exact ⟨hqr, by omega, hq⟩
          · rintro ⟨hqr, hge, hq⟩
            refine ⟨hqr, ?_, hq⟩
            rcases Nat.eq_or_lt_of_le hge with rfl | h
            · exact absurd hq htok
            · omega
        rw [hset]

/-- The source's global `/\bif\b/` count equals the number of `if` tokens. -/
theorem reCount_kw_if_eq (body : String) :
    reCount (reKw "if") body = ifTokenCount body := by
  rw [reCount, ifTokenCount, reCountAux_kw_if body.toList (body.toList.length + 1) 0
    (by omega)]
  have hset : (Finset.range body.toList.length).filter
        (fun p => 0 ≤ p ∧ isIfTokenAt body.toList p = true) =
      (Finset.range body.toList.length).filter
        (fun p => isIfTokenAt body.toList p = true) := by
    ext q
    simp
  rw [hset]

/-- C2: the cyclomatic complexity of a body is at least one more than its
number of `if` tokens. -/
theorem cyclomatic_ge_if_tokens (body : String) :
    ifTokenCount body + 1 ≤ calculateFunctionCyclomaticComplexity body := by
  rw [calculateFunctionCyclomaticComplexity, ← reCount_kw_if_eq]
  omega
